import Mathlib

/-
Shallow embedding of the ecosystem_sim repository (src/ecosystem_sim/world.py,
plant.py, simulation.py).  Numeric cell and plant state is modelled over the
rationals; every arithmetic operation of the source is a rational operation
here.  The two transcendental computations of the source are handled exactly:

  * world.update_lighting stores max(0, sin(2*pi*hour/24)) uniformly in every
    cell.  The world update is parametrized by the light curve
    (lightOf : Nat -> Rat); the real-valued curve itself is lightCurve below,
    with lightCurve_nonneg_le_one showing it always lies in [0, 1], which is
    the only fact about it the simulation invariants consume.

  * world._add_water_bodies tests sqrt((x-cx)^2 + (y-cy)^2) < radius with
    integer operands; for integers d2 >= 0 and radius >= 0 this is equivalent
    to d2 < radius^2, which is how World.init states it.

random.random() draws are modelled as a stream r : Nat -> Rat consumed in
source order; the draw index is threaded through every function exactly where
the source calls random.random().  random.randint draws during seeding are a
stream of coordinate pairs.  Mutation of the grid, the plants and the
atmosphere is explicit state passing.
-/

namespace Ecosim

/-- The 'type' key of a cell dict: 'soil' or 'water'. -/
inductive CellType where
  | soil
  | water
deriving DecidableEq, Repr

/-- One cell dict of world.py: keys type, light, water, temperature,
resources.  The 'type' key is spelled ctype here. -/
structure Cell where
  ctype : CellType
  light : ℚ
  water : ℚ
  temperature : ℚ
  resources : ℚ
deriving DecidableEq, Repr

/-- The World object of world.py: the grid is a total function (y, x) to
cells, read and written only at indices below height and width, matching the
2D list self.grid indexed self.grid[y][x]. -/
structure World where
  width : ℕ
  height : ℕ
  grid : ℕ → ℕ → Cell
  time : ℕ
  hour : ℕ
  day : ℕ

/-- The default cell of World.__init__: soil, light 0.0, water 0.7,
temperature 20.0, resources 1.0. -/
def initCell : Cell :=
  { ctype := CellType.soil, light := 0, water := 7/10, temperature := 20, resources := 1 }

/-- World.__init__ followed by _add_water_bodies: a default soil grid with a
disc of water cells (type water, water 1.0, other keys kept) of radius
min(width, height) // 8 around (width // 2, height // 2).  The source's
sqrt((x-cx)^2+(y-cy)^2) < radius is stated as (x-cx)^2+(y-cy)^2 < radius^2,
exactly equivalent over the nonnegative integers involved. -/
def World.init (width height : ℕ) : World :=
  { width := width, height := height, time := 0, hour := 0, day := 0,
    grid := fun y x =>
      if ((x : ℤ) - (width : ℤ) / 2) ^ 2 + ((y : ℤ) - (height : ℤ) / 2) ^ 2
          < ((min width height : ℕ) / 8 : ℤ) ^ 2 then
        { initCell with ctype := CellType.water, water := 1 }
      else initCell }

/-- World.get_cell: the cell at (x, y) when 0 <= x < width and
0 <= y < height, else None. -/
def World.get_cell (w : World) (x y : ℤ) : Option Cell :=
  if 0 ≤ x ∧ x < (w.width : ℤ) ∧ 0 ≤ y ∧ y < (w.height : ℤ) then
    some (w.grid y.toNat x.toNat)
  else none

/-- Write one grid slot (the source mutates the cell dict at grid[y][x] in
place; only in-bounds coordinates ever reach a write). -/
def World.setCellAt (w : World) (x y : ℤ) (c : Cell) : World :=
  { w with grid := fun y' x' => if y' = y.toNat ∧ x' = x.toNat then c else w.grid y' x' }

/-- World.update_lighting: store the one light value lv in every cell of the
grid (the source computes lv = max(0, sin(2 pi t/24)) from the hour; the
world update is parametrized by it, see lightCurve below). -/
def World.update_lighting (w : World) (lv : ℚ) : World :=
  { w with grid := fun y x =>
      if y < w.height ∧ x < w.width then { w.grid y x with light := lv } else w.grid y x }

/-- World.advance_time: time += 1, hour = (hour + 1) % 24, day += 1 iff the
new hour is 0, then update_lighting at the new hour's light value. -/
def World.advance_time (w : World) (lightOf : ℕ → ℚ) : World :=
  let hour' := (w.hour + 1) % 24
  World.update_lighting
    { w with time := w.time + 1, hour := hour',
             day := if hour' = 0 then w.day + 1 else w.day }
    (lightOf hour')

/-- Iterated advance_time. -/
def World.advanceN (lightOf : ℕ → ℚ) : ℕ → World → World
  | 0, w => w
  | n + 1, w => (World.advanceN lightOf n w).advance_time lightOf

/-- The light value update_lighting receives in the source:
max(0, sin(time_of_day / 24 * 2 * pi)). -/
noncomputable def lightCurve (time_of_day : ℝ) : ℝ :=
  max 0 (Real.sin (time_of_day / 24 * (2 * Real.pi)))

/-- The source's light curve always lies in [0, 1]: the only fact about it
the simulation invariants use, so the rational development may take the
per-hour light value as an arbitrary parameter in [0, 1]. -/
theorem lightCurve_nonneg_le_one (t : ℝ) : 0 ≤ lightCurve t ∧ lightCurve t ≤ 1 :=
  ⟨le_max_left 0 _, max_le zero_le_one (Real.sin_le_one _)⟩

/-- The Plant object of plant.py. -/
structure Plant where
  position : ℤ × ℤ
  age : ℕ
  health : ℚ
  size : ℚ
  co2_absorbed : ℚ
  o2_produced : ℚ
deriving DecidableEq, Repr

/-- Plant.__init__: age 0, health 100.0, size 0.1, zero gas counters. -/
def Plant.create (position : ℤ × ℤ) : Plant :=
  { position := position, age := 0, health := 100, size := 1/10,
    co2_absorbed := 0, o2_produced := 0 }

/-- The condition `cell is not None and cell['type'] == 'soil'`. -/
def cellIsSoil : Option Cell → Bool
  | none => false
  | some c => decide (c.ctype = CellType.soil)

/-- What one call to Plant.grow returns: the mutated plant, the mutated
world, and the boolean result (health > 0). -/
structure GrowResult where
  plant : Plant
  world : World
  alive : Bool

/-- Plant.grow.  If the cell is missing or not soil: health -= 10 and return
immediately.  Else growth_factor = min(light, water) * 0.2; if positive:
age += 1, size += growth_factor * 0.1 capped at 1.0, both gas counters +=
growth_factor, and the cell's water becomes max(0, water - growth_factor *
0.05); else health -= 2.  Then health -= 0.5 if age > 100, and the result is
health > 0. -/
def Plant.grow (p : Plant) (w : World) : GrowResult :=
  match w.get_cell p.position.1 p.position.2 with
  | none =>
      let p' := { p with health := p.health - 10 }
      { plant := p', world := w, alive := decide (0 < p'.health) }
  | some cell =>
      if cell.ctype = CellType.soil then
        let growth_factor := min cell.light cell.water * (2/10)
        if 0 < growth_factor then
          let p1 := { p with
            age := p.age + 1,
            size := min (p.size + growth_factor * (1/10)) 1,
            co2_absorbed := p.co2_absorbed + growth_factor,
            o2_produced := p.o2_produced + growth_factor }
          let w1 := w.setCellAt p.position.1 p.position.2
            { cell with water := max 0 (cell.water - growth_factor * (5/100)) }
          let p2 := if 100 < p1.age then { p1 with health := p1.health - 1/2 } else p1
          { plant := p2, world := w1, alive := decide (0 < p2.health) }
        else
          let p1 := { p with health := p.health - 2 }
          let p2 := if 100 < p1.age then { p1 with health := p1.health - 1/2 } else p1
          { plant := p2, world := w, alive := decide (0 < p2.health) }
      else
        let p' := { p with health := p.health - 10 }
        { plant := p', world := w, alive := decide (0 < p'.health) }

/-- The inner `for dy` loop of Plant.reproduce for one fixed dx: scan the dy
values in order, skip (0,0), and for the first in-bounds soil neighbour whose
independent 0.3 coin succeeds create one Plant and break out of this inner
loop.  Returns the plants appended by this row and the next draw index. -/
def Plant.scanRow (p : Plant) (w : World) (r : ℕ → ℚ) (dx : ℤ) :
    List ℤ → ℕ → List Plant × ℕ
  | [], k => ([], k)
  | dy :: rest, k =>
    if dx = 0 ∧ dy = 0 then p.scanRow w r dx rest k
    else
      match w.get_cell (p.position.1 + dx) (p.position.2 + dy) with
      | some cell =>
          if cell.ctype = CellType.soil then
            if r k < 3/10 then
              ([Plant.create (p.position.1 + dx, p.position.2 + dy)], k + 1)
            else p.scanRow w r dx rest (k + 1)
          else p.scanRow w r dx rest k
      | none => p.scanRow w r dx rest k

/-- The outer `for dx` loop of Plant.reproduce: the break above only leaves
the inner dy loop, so the outer loop continues with the next dx. -/
def Plant.scanAll (p : Plant) (w : World) (r : ℕ → ℚ) :
    List ℤ → ℕ → List Plant × ℕ
  | [], k => ([], k)
  | dx :: rest, k =>
    let row := p.scanRow w r dx [-1, 0, 1] k
    let more := p.scanAll w r rest row.2
    (row.1 ++ more.1, more.2)

/-- Plant.reproduce: empty if age < 30 or size < 0.3 (no draw consumed);
else draw once against health / 100 * size and on success run the neighbour
scan.  Returns the new plants and the next draw index. -/
def Plant.reproduce (p : Plant) (w : World) (r : ℕ → ℚ) (k : ℕ) : List Plant × ℕ :=
  if p.age < 30 ∨ p.size < 3/10 then ([], k)
  else
    let reproduction_chance := p.health / 100 * p.size
    if r k < reproduction_chance then p.scanAll w r [-1, 0, 1] (k + 1)
    else ([], k + 1)

/-- The Simulation object of simulation.py: the world, the live plant list,
and the atmosphere dict {co2, o2, water}; the 'water' key is absent at
construction and read with .get('water', 0), so it is a rational starting at
0 here. -/
structure Simulation where
  world : World
  plants : List Plant
  co2 : ℚ
  o2 : ℚ
  atmosphere_water : ℚ

/-- The inner retry loop of Simulation._seed_initial_plants for one plant:
up to the given number of attempts, draw a coordinate pair; on the first
in-bounds soil cell create the plant and stop.  Returns the plant (if any)
and the next draw index. -/
def trySeedPlant (w : World) (coords : ℕ → ℤ × ℤ) :
    ℕ → ℕ → Option Plant × ℕ
  | 0, k => (none, k)
  | attempts + 1, k =>
    match w.get_cell (coords k).1 (coords k).2 with
    | some cell =>
        if cell.ctype = CellType.soil then (some (Plant.create (coords k)), k + 1)
        else trySeedPlant w coords attempts (k + 1)
    | none => trySeedPlant w coords attempts (k + 1)

/-- Simulation._seed_initial_plants: num_plants rounds of the 10-attempt
retry loop, silently skipping a plant when no soil cell is found. -/
def seedPlants (w : World) (coords : ℕ → ℤ × ℤ) : ℕ → ℕ → List Plant
  | 0, _ => []
  | n + 1, k =>
    match trySeedPlant w coords 10 k with
    | (some p, k') => p :: seedPlants w coords n k'
    | (none, k') => seedPlants w coords n k'

/-- Simulation.__init__: a fresh World, 20 seeded plants, co2 and o2 at
100.0, no atmospheric water yet. -/
def Simulation.init (width height : ℕ) (coords : ℕ → ℤ × ℤ) : Simulation :=
  { world := World.init width height,
    plants := seedPlants (World.init width height) coords 20 0,
    co2 := 100, o2 := 100, atmosphere_water := 0 }

/-- The mutable state threaded through _update_water_cycle: the grid, the
atmospheric water pool, and the next draw index. -/
structure WaterState where
  grid : ℕ → ℕ → Cell
  atmosphere_water : ℚ
  k : ℕ

/-- Write one slot of a bare grid. -/
def setGrid (g : ℕ → ℕ → Cell) (y x : ℕ) (c : Cell) : ℕ → ℕ → Cell :=
  fun y' x' => if y' = y ∧ x' = x then c else g y' x'

/-- The evaporation half of _update_water_cycle's soil branch at (y, x): on
hot daytime hours the cell loses evaporation = min(0.01, water * 0.05) to
the atmospheric pool. -/
def soilEvaporation (hour : ℕ) (y x : ℕ) (st : WaterState) : WaterState :=
  let cell := st.grid y x
  if (6 ≤ hour ∧ hour ≤ 18) ∧ 7/10 < cell.light then
    let evaporation := min (1/100) (cell.water * (5/100))
    { st with
      grid := setGrid st.grid y x { cell with water := cell.water - evaporation },
      atmosphere_water := st.atmosphere_water + evaporation }
  else st

/-- The rain half of _update_water_cycle's soil branch at (y, x): if it is
night or the pool exceeds 2.0, a 5% coin adds min(0.2, pool * 0.5) to the
cell's water, capped at 1.0, and removes that amount from the pool, floored
at 0. -/
def soilRain (hour : ℕ) (r : ℕ → ℚ) (y x : ℕ) (st : WaterState) : WaterState :=
  if ¬ (6 ≤ hour ∧ hour ≤ 18) ∨ 2 < st.atmosphere_water then
    if r st.k < 5/100 then
      let cell := st.grid y x
      let rain_amount := min (2/10) (st.atmosphere_water * (1/2))
      { grid := setGrid st.grid y x
          { cell with water := min 1 (cell.water + rain_amount) },
        atmosphere_water := max 0 (st.atmosphere_water - rain_amount),
        k := st.k + 1 }
    else { st with k := st.k + 1 }
  else st

/-- The body of _update_water_cycle for the cell at (y, x).  Water cells add
0.01 to the pool on bright daytime hours; soil cells evaporate and then
possibly receive rain. -/
def waterCellUpdate (hour : ℕ) (r : ℕ → ℚ) (y x : ℕ) (st : WaterState) : WaterState :=
  let cell := st.grid y x
  if cell.ctype = CellType.water then
    if (6 ≤ hour ∧ hour ≤ 18) ∧ 1/2 < cell.light then
      { st with atmosphere_water := st.atmosphere_water + 1/100 }
    else st
  else soilRain hour r y x (soilEvaporation hour y x st)

/-- _update_water_cycle's nested loops, as a left fold over the row-major
cell index list. -/
def waterCycleCells (hour : ℕ) (r : ℕ → ℚ) : List (ℕ × ℕ) → WaterState → WaterState
  | [], st => st
  | yx :: rest, st => waterCycleCells hour r rest (waterCellUpdate hour r yx.1 yx.2 st)

/-- The row-major index list (y, x) for y below height, x below width. -/
def cellIndices (height width : ℕ) : List (ℕ × ℕ) :=
  (List.range height).flatMap fun y => (List.range width).map fun x => (y, x)

/-- What Simulation.update's plant loop produces: the plants whose grow
returned true (in order, post-grow), those it marked for removal (in order,
post-grow), the offspring collected, the world after all grow mutations, and
the next draw index. -/
structure PassOut where
  survivors : List Plant
  removed : List Plant
  offspring : List Plant
  world : World
  k : ℕ

/-- Simulation.update's `for plant in self.plants` loop: grow each plant in
order against the evolving world; a plant whose grow returns false is marked
for removal and skips reproduction; an alive plant reproduces in the world
its grow left behind. -/
def plantsStep (r : ℕ → ℚ) : List Plant → World → ℕ → PassOut
  | [], w, k => { survivors := [], removed := [], offspring := [], world := w, k := k }
  | p :: rest, w, k =>
    let g := p.grow w
    if g.alive then
      let offs := g.plant.reproduce g.world r k
      let out := plantsStep r rest g.world offs.2
      { out with survivors := g.plant :: out.survivors,
                 offspring := offs.1 ++ out.offspring }
    else
      let out := plantsStep r rest g.world k
      { out with removed := g.plant :: out.removed }

/-- The removal pass of Simulation.update: each dead plant's cell (when its
position is in bounds; get_cell returning None skips the deposit) gains
size * 0.5 resources. -/
def depositResources : List Plant → World → World
  | [], w => w
  | p :: rest, w =>
    match w.get_cell p.position.1 p.position.2 with
    | some cell =>
        depositResources rest
          (w.setCellAt p.position.1 p.position.2
            { cell with resources := cell.resources + p.size * (1/2) })
    | none => depositResources rest w

/-- Simulation._update_atmosphere: sum both gas counters over the (current)
live list, reset every counter to zero, then
co2 = max(50, co2 - total_absorbed + 0.1) and
o2 = max(50, o2 + total_produced - 0.1). -/
def Simulation.update_atmosphere (s : Simulation) : Simulation :=
  let total_co2_absorbed := (s.plants.map Plant.co2_absorbed).sum
  let total_o2_produced := (s.plants.map Plant.o2_produced).sum
  { s with
    plants := s.plants.map fun p => { p with co2_absorbed := 0, o2_produced := 0 },
    co2 := max 50 (s.co2 - total_co2_absorbed + 1/10),
    o2 := max 50 (s.o2 + total_o2_produced - 1/10) }

/-- The first two stages of Simulation.update: world.advance_time, then the
water-cycle pass.  Returns the world the plant loop starts from, the new
atmospheric water pool, and the next draw index. -/
def Simulation.growPhase (lightOf : ℕ → ℚ) (r : ℕ → ℚ) (s : Simulation) :
    World × ℚ × ℕ :=
  let w1 := s.world.advance_time lightOf
  let st := waterCycleCells w1.hour r (cellIndices w1.height w1.width)
    { grid := w1.grid, atmosphere_water := s.atmosphere_water, k := 0 }
  ({ w1 with grid := st.grid }, st.atmosphere_water, st.k)

/-- The plant loop of Simulation.update, run on the world the water cycle
left behind. -/
def Simulation.passOut (lightOf : ℕ → ℚ) (r : ℕ → ℚ) (s : Simulation) : PassOut :=
  plantsStep r s.plants (s.growPhase lightOf r).1 (s.growPhase lightOf r).2.2

/-- The plants Simulation.update removes (their grow returned false). -/
def Simulation.removedOf (lightOf : ℕ → ℚ) (r : ℕ → ℚ) (s : Simulation) : List Plant :=
  (s.passOut lightOf r).removed

/-- The plants Simulation.update keeps from the old live list. -/
def Simulation.survivorsOf (lightOf : ℕ → ℚ) (r : ℕ → ℚ) (s : Simulation) : List Plant :=
  (s.passOut lightOf r).survivors

/-- The offspring Simulation.update appends to the live list. -/
def Simulation.offspringOf (lightOf : ℕ → ℚ) (r : ℕ → ℚ) (s : Simulation) : List Plant :=
  (s.passOut lightOf r).offspring

/-- Simulation.update: advance time, run the water cycle, grow/reproduce
every plant, remove the dead (depositing resources), append the offspring,
then update the atmosphere. -/
def Simulation.update (lightOf : ℕ → ℚ) (r : ℕ → ℚ) (s : Simulation) : Simulation :=
  let gp := s.growPhase lightOf r
  let out := plantsStep r s.plants gp.1 gp.2.2
  Simulation.update_atmosphere
    { world := depositResources out.removed out.world,
      plants := out.survivors ++ out.offspring,
      co2 := s.co2, o2 := s.o2,
      atmosphere_water := gp.2.1 }

/-- Iterated Simulation.update; tick n consumes the draw stream rs n. -/
def Simulation.updateN (lightOf : ℕ → ℚ) (rs : ℕ → ℕ → ℚ) : ℕ → Simulation → Simulation
  | 0, s => s
  | n + 1, s => (Simulation.updateN lightOf rs n s).update lightOf (rs n)

/-! Small evaluation helpers. -/

/-- The two cell types are distinct. -/
theorem water_eq_soil_iff : (CellType.water = CellType.soil) ↔ False :=
  iff_false_intro (fun h => nomatch h)

/-- The two cell types are distinct (other orientation). -/
theorem soil_eq_water_iff : (CellType.soil = CellType.water) ↔ False :=
  iff_false_intro (fun h => nomatch h)

/-! Closed forms for the time counters of world.py. -/

/-- After n advance_time calls on a fresh World: time = n, hour = n % 24,
day = n / 24. -/
theorem advanceN_clock (lightOf : ℕ → ℚ) (width height n : ℕ) :
    (World.advanceN lightOf n (World.init width height)).time = n ∧
    (World.advanceN lightOf n (World.init width height)).hour = n % 24 ∧
    (World.advanceN lightOf n (World.init width height)).day = n / 24 := by
  induction n with
  | zero => exact ⟨rfl, rfl, rfl⟩
  | succ n ih =>
    obtain ⟨ht, hh, hd⟩ := ih
    refine ⟨?_, ?_, ?_⟩ <;>
      simp only [World.advanceN, World.advance_time, World.update_lighting, ht, hh, hd] <;>
      first
      | omega
      | (split <;> omega)

/-- C4: hour stays in [0, 23] and equals time mod 24, day never decreases,
day gains exactly one over any 24 consecutive advance_time calls, and each
call increments day exactly when the new hour is 0. -/
theorem hour_day_clock (width height : ℕ) (lightOf : ℕ → ℚ) (n : ℕ) :
    (World.advanceN lightOf n (World.init width height)).hour ≤ 23 ∧
    (World.advanceN lightOf n (World.init width height)).hour
      = (World.advanceN lightOf n (World.init width height)).time % 24 ∧
    (World.advanceN lightOf n (World.init width height)).day
      ≤ (World.advanceN lightOf (n + 1) (World.init width height)).day ∧
    (World.advanceN lightOf (n + 24) (World.init width height)).day
      = (World.advanceN lightOf n (World.init width height)).day + 1 ∧
    (World.advanceN lightOf (n + 1) (World.init width height)).day
      = (World.advanceN lightOf n (World.init width height)).day
        + (if (World.advanceN lightOf (n + 1) (World.init width height)).hour = 0
           then 1 else 0) := by
  obtain ⟨ht, hh, hd⟩ := advanceN_clock lightOf width height n
  obtain ⟨ht1, hh1, hd1⟩ := advanceN_clock lightOf width height (n + 1)
  obtain ⟨ht24, hh24, hd24⟩ := advanceN_clock lightOf width height (n + 24)
  rw [ht, hh, hd, hh1, hd1, hd24]
  refine ⟨by omega, by omega, by omega, by omega, ?_⟩
  split <;> omega

/-- C7: a plant below either maturity bound never reproduces, whatever the
draws and the world. -/
theorem reproduce_immature_empty (p : Plant) (w : World) (r : ℕ → ℚ) (k : ℕ)
    (h : p.age < 30 ∨ p.size < 3/10) :
    (p.reproduce w r k).1 = [] := by
  simp only [Plant.reproduce, if_pos h]

/-- Witness for reproduce_immature_empty: a fresh plant (age 0, size 0.1)
in a 2 by 2 world. -/
theorem reproduce_immature_empty_witness :
    ((⟨(0, 0), 0, 100, 1/10, 0, 0⟩ : Plant).age < 30 ∨
      (⟨(0, 0), 0, 100, 1/10, 0, 0⟩ : Plant).size < 3/10) ∧
    ((⟨(0, 0), 0, 100, 1/10, 0, 0⟩ : Plant).reproduce (World.init 2 2) (fun _ => 0) 0).1 = [] :=
  ⟨Or.inl (by decide),
   reproduce_immature_empty ⟨(0, 0), 0, 100, 1/10, 0, 0⟩ (World.init 2 2) (fun _ => 0) 0
     (Or.inl (by decide))⟩

/-- C8: one grow call for a fresh plant at (2,2) on a soil cell with light 1
and water 1: age becomes 1, size 0.12, the cell's water drops by 0.01 to
0.99, and the plant is alive.  The co2 counter moved from 0 to 0.2, which is
exactly the growth_factor = min(1,1) * 0.2 the call computed. -/
theorem first_grow_scenario :
    ((Plant.create (2, 2)).grow ((World.init 5 5).setCellAt 2 2
      { ctype := CellType.soil, light := 1, water := 1, temperature := 20,
        resources := 1 })).plant.age = 1 ∧
    ((Plant.create (2, 2)).grow ((World.init 5 5).setCellAt 2 2
      { ctype := CellType.soil, light := 1, water := 1, temperature := 20,
        resources := 1 })).plant.size = 12/100 ∧
    ((Plant.create (2, 2)).grow ((World.init 5 5).setCellAt 2 2
      { ctype := CellType.soil, light := 1, water := 1, temperature := 20,
        resources := 1 })).plant.co2_absorbed = 2/10 ∧
    (((Plant.create (2, 2)).grow ((World.init 5 5).setCellAt 2 2
      { ctype := CellType.soil, light := 1, water := 1, temperature := 20,
        resources := 1 })).world.grid 2 2).water = 1 - 1/100 ∧
    ((Plant.create (2, 2)).grow ((World.init 5 5).setCellAt 2 2
      { ctype := CellType.soil, light := 1, water := 1, temperature := 20,
        resources := 1 })).alive = true := by
  refine ⟨?_, ?_, ?_, ?_, ?_⟩ <;>
    (norm_num [Plant.grow, Plant.create, World.get_cell, World.setCellAt, World.init, initCell,
       Int.toNat_ofNat, water_eq_soil_iff, soil_eq_water_iff];
     try rfl)

/-- C1: a mature, fully healthy plant at the centre of an all-soil 3 by 3
world, with every draw 0 (so the reproduction roll and every 0.3 coin
succeed), returns three offspring, one per dx column: the source's break
leaves only the inner dy loop, contradicting the comment on it ('Only create
one seed for now'). -/
theorem reproduce_three_offspring :
    ((⟨(1, 1), 30, 100, 1, 0, 0⟩ : Plant).reproduce (World.init 3 3)
        (fun _ => 0) 0).1
      = [Plant.create (0, 0), Plant.create (1, 0), Plant.create (2, 0)] := by
  norm_num [Plant.reproduce, Plant.scanAll, Plant.scanRow, Plant.create,
    World.get_cell, World.init, initCell, Int.toNat_ofNat, water_eq_soil_iff, soil_eq_water_iff]

/-- C2 counterexample: a plant of age 101 on the water cell at the centre of
a 20 by 20 world loses exactly 10 health in one grow call, not the 10.5 the
claim states. -/
theorem grow_nonsoil_counterexample :
    ((⟨(10, 10), 101, 100, 1/2, 0, 0⟩ : Plant).grow (World.init 20 20)).plant.health
        = 90 ∧
    ¬ ((⟨(10, 10), 101, 100, 1/2, 0, 0⟩ : Plant).grow (World.init 20 20)).plant.health
        = 100 - 21/2 := by
  have h : ((⟨(10, 10), 101, 100, 1/2, 0, 0⟩ : Plant).grow
      (World.init 20 20)).plant.health = 90 := by
    norm_num [Plant.grow, World.get_cell, World.init, initCell,
      Int.toNat_ofNat, water_eq_soil_iff, soil_eq_water_iff]
  exact ⟨h, by rw [h]; norm_num⟩

/-- C2 amended: when the cell is missing or not soil, grow returns
immediately after health -= 10, so whatever the age (in particular past
100), the health drop is exactly 10, the world is untouched, and the result
is health - 10 > 0; the senescence deduction is skipped. -/
theorem grow_nonsoil_health_drop_ten (p : Plant) (w : World)
    (hc : cellIsSoil (w.get_cell p.position.1 p.position.2) = false)
    (_hage : 100 < p.age) :
    (p.grow w).plant = { p with health := p.health - 10 } ∧
    (p.grow w).world = w ∧
    (p.grow w).alive = decide (0 < p.health - 10) := by
  rcases hcell : w.get_cell p.position.1 p.position.2 with _ | cell
  · simp [Plant.grow, hcell]
  · rw [hcell] at hc
    have hns : ¬ cell.ctype = CellType.soil := by
      simpa [cellIsSoil] using hc
    simp [Plant.grow, hcell, hns]

/-- Witness for grow_nonsoil_health_drop_ten: the age-101 plant on the lake
cell (10, 10) of a 20 by 20 world. -/
theorem grow_nonsoil_health_drop_ten_witness :
    cellIsSoil ((World.init 20 20).get_cell 10 10) = false ∧
    100 < (⟨(10, 10), 101, 100, 1/2, 0, 0⟩ : Plant).age ∧
    ((⟨(10, 10), 101, 100, 1/2, 0, 0⟩ : Plant).grow (World.init 20 20)).plant
      = { (⟨(10, 10), 101, 100, 1/2, 0, 0⟩ : Plant) with health := 100 - 10 } ∧
    ((⟨(10, 10), 101, 100, 1/2, 0, 0⟩ : Plant).grow (World.init 20 20)).world
      = World.init 20 20 ∧
    ((⟨(10, 10), 101, 100, 1/2, 0, 0⟩ : Plant).grow (World.init 20 20)).alive
      = decide ((0 : ℚ) < 100 - 10) :=
  ⟨by norm_num [cellIsSoil, World.get_cell, World.init, initCell, Int.toNat_ofNat, water_eq_soil_iff, soil_eq_water_iff], by norm_num,
   (grow_nonsoil_health_drop_ten ⟨(10, 10), 101, 100, 1/2, 0, 0⟩ (World.init 20 20)
      (by norm_num [cellIsSoil, World.get_cell, World.init, initCell, Int.toNat_ofNat, water_eq_soil_iff, soil_eq_water_iff]) (by norm_num)).1,
   (grow_nonsoil_health_drop_ten ⟨(10, 10), 101, 100, 1/2, 0, 0⟩ (World.init 20 20)
      (by norm_num [cellIsSoil, World.get_cell, World.init, initCell, Int.toNat_ofNat, water_eq_soil_iff, soil_eq_water_iff]) (by norm_num)).2.1,
   (grow_nonsoil_health_drop_ten ⟨(10, 10), 101, 100, 1/2, 0, 0⟩ (World.init 20 20)
      (by norm_num [cellIsSoil, World.get_cell, World.init, initCell, Int.toNat_ofNat, water_eq_soil_iff, soil_eq_water_iff]) (by norm_num)).2.2⟩

/-! Frame and shape lemmas about grow, reproduce and the plant loop. -/

/-- A successful get_cell returns exactly the grid slot, and the coordinates
are in bounds. -/
theorem get_cell_eq_grid (w : World) (x y : ℤ) (c : Cell)
    (h : w.get_cell x y = some c) :
    c = w.grid y.toNat x.toNat ∧
    0 ≤ x ∧ x < (w.width : ℤ) ∧ 0 ≤ y ∧ y < (w.height : ℤ) := by
  unfold World.get_cell at h
  split at h
  · exact ⟨(Option.some.injEq _ _ ▸ h).symm, by assumption⟩
  · exact absurd h (by simp)

/-- Reading the grid of setCellAt. -/
theorem setCellAt_grid (w : World) (x y : ℤ) (c : Cell) (y' x' : ℕ) :
    (w.setCellAt x y c).grid y' x'
      = if y' = y.toNat ∧ x' = x.toNat then c else w.grid y' x' := rfl

/-- grow leaves the dimensions, clocks, and every cell's type, light and
resources unchanged: it only ever writes the water key of its own cell. -/
theorem grow_world_frame (p : Plant) (w : World) :
    (p.grow w).world.width = w.width ∧
    (p.grow w).world.height = w.height ∧
    (∀ y x, ((p.grow w).world.grid y x).ctype = (w.grid y x).ctype) ∧
    (∀ y x, ((p.grow w).world.grid y x).light = (w.grid y x).light) ∧
    (∀ y x, ((p.grow w).world.grid y x).resources = (w.grid y x).resources) := by
  unfold Plant.grow
  cases hc : w.get_cell p.position.1 p.position.2 with
  | none => exact ⟨rfl, rfl, fun _ _ => rfl, fun _ _ => rfl, fun _ _ => rfl⟩
  | some cell =>
    obtain ⟨hcell, -⟩ := get_cell_eq_grid w _ _ cell hc
    dsimp only
    split
    · split
      · refine ⟨rfl, rfl, ?_, ?_, ?_⟩ <;>
          intro y x <;>
          rw [setCellAt_grid] <;>
          split <;>
          first
          | rfl
          | (rename_i hyx; rw [hyx.1, hyx.2, hcell])
      · exact ⟨rfl, rfl, fun _ _ => rfl, fun _ _ => rfl, fun _ _ => rfl⟩
    · exact ⟨rfl, rfl, fun _ _ => rfl, fun _ _ => rfl, fun _ _ => rfl⟩

/-- grow does not move the plant. -/
theorem grow_position (p : Plant) (w : World) :
    (p.grow w).plant.position = p.position := by
  unfold Plant.grow
  cases hc : w.get_cell p.position.1 p.position.2 with
  | none => rfl
  | some cell =>
    dsimp only
    split
    · split
      · split <;> rfl
      · split <;> rfl
    · rfl

/-- grow's boolean result is exactly whether the returned plant's health is
positive. -/
theorem grow_alive_iff (p : Plant) (w : World) :
    (p.grow w).alive = true ↔ 0 < (p.grow w).plant.health := by
  unfold Plant.grow
  cases hc : w.get_cell p.position.1 p.position.2 with
  | none => simp
  | some cell =>
    dsimp only
    split
    · split
      · simp
      · simp
    · simp

/-- Every plant the loop marks for removal has nonpositive health. -/
theorem plantsStep_removed_dead (r : ℕ → ℚ) :
    ∀ (l : List Plant) (w : World) (k : ℕ) (q : Plant),
      q ∈ (plantsStep r l w k).removed → q.health ≤ 0
  | [], w, k, q => by simp [plantsStep]
  | p :: rest, w, k, q => by
    simp only [plantsStep]
    by_cases ha : (p.grow w).alive = true
    · rw [if_pos ha]
      exact fun hq => plantsStep_removed_dead r rest _ _ q hq
    · rw [if_neg ha]
      intro hq
      rcases List.mem_cons.mp hq with h | h
      · subst h
        have := (not_iff_not.mpr (grow_alive_iff p w)).mp ha
        exact le_of_not_lt this
      · exact plantsStep_removed_dead r rest _ _ q h

/-- Every survivor of the loop has positive health. -/
theorem plantsStep_survivors_alive (r : ℕ → ℚ) :
    ∀ (l : List Plant) (w : World) (k : ℕ) (q : Plant),
      q ∈ (plantsStep r l w k).survivors → 0 < q.health
  | [], w, k, q => by simp [plantsStep]
  | p :: rest, w, k, q => by
    simp only [plantsStep]
    by_cases ha : (p.grow w).alive = true
    · rw [if_pos ha]
      intro hq
      rcases List.mem_cons.mp hq with h | h
      · subst h
        exact (grow_alive_iff p w).mp ha
      · exact plantsStep_survivors_alive r rest _ _ q h
    · rw [if_neg ha]
      exact fun hq => plantsStep_survivors_alive r rest _ _ q hq

/-- Every plant the inner dy scan creates is a fresh default plant sitting
on an in-bounds soil cell of the world the scan read. -/
theorem scanRow_offspring (p : Plant) (w : World) (r : ℕ → ℚ) (dx : ℤ) :
    ∀ (l : List ℤ) (k : ℕ) (q : Plant), q ∈ (p.scanRow w r dx l k).1 →
      q = Plant.create q.position ∧
      cellIsSoil (w.get_cell q.position.1 q.position.2) = true
  | [], k, q => by simp [Plant.scanRow]
  | dy :: rest, k, q => by
    simp only [Plant.scanRow]
    split
    · exact fun hq => scanRow_offspring p w r dx rest k q hq
    · cases hc : w.get_cell (p.position.1 + dx) (p.position.2 + dy) with
      | none => exact fun hq => scanRow_offspring p w r dx rest k q hq
      | some cell =>
        dsimp only
        split
        · split
          · intro hq
            rename_i hsoil hcoin
            rcases List.mem_singleton.mp hq with rfl
            exact ⟨rfl, by simp [Plant.create, cellIsSoil, hc, hsoil]⟩
          · exact fun hq => scanRow_offspring p w r dx rest (k + 1) q hq
        · exact fun hq => scanRow_offspring p w r dx rest k q hq

/-- As scanRow_offspring, for the outer dx loop. -/
theorem scanAll_offspring (p : Plant) (w : World) (r : ℕ → ℚ) :
    ∀ (l : List ℤ) (k : ℕ) (q : Plant), q ∈ (p.scanAll w r l k).1 →
      q = Plant.create q.position ∧
      cellIsSoil (w.get_cell q.position.1 q.position.2) = true
  | [], k, q => by simp [Plant.scanAll]
  | dx :: rest, k, q => by
    simp only [Plant.scanAll]
    intro hq
    rcases List.mem_append.mp hq with h | h
    · exact scanRow_offspring p w r dx [-1, 0, 1] k q h
    · exact scanAll_offspring p w r rest _ q h

/-- Every offspring reproduce returns is a fresh default plant sitting on an
in-bounds soil cell of the world reproduce read. -/
theorem reproduce_offspring (p : Plant) (w : World) (r : ℕ → ℚ) (k : ℕ) (q : Plant)
    (hq : q ∈ (p.reproduce w r k).1) :
    q = Plant.create q.position ∧
    cellIsSoil (w.get_cell q.position.1 q.position.2) = true := by
  unfold Plant.reproduce at hq
  split at hq
  · simp at hq
  · dsimp only at hq
    split at hq
    · exact scanAll_offspring p w r [-1, 0, 1] (k + 1) q hq
    · simp at hq

/-- Every offspring the loop collects comes from a reproduce call of a plant
that was alive (positive health) after its grow, made against a world whose
dimensions and cell types agree with the loop's input world. -/
theorem plantsStep_offspring_mem (r : ℕ → ℚ) :
    ∀ (l : List Plant) (w : World) (k : ℕ) (q : Plant),
      q ∈ (plantsStep r l w k).offspring →
      ∃ (par : Plant) (w' : World) (k' : ℕ),
        0 < par.health ∧ q ∈ (par.reproduce w' r k').1 ∧
        w'.width = w.width ∧ w'.height = w.height ∧
        (∀ y x, ((w'.grid y x)).ctype = (w.grid y x).ctype)
  | [], w, k, q => by simp [plantsStep]
  | p :: rest, w, k, q => by
    simp only [plantsStep]
    obtain ⟨hW, hH, hT, -, -⟩ := grow_world_frame p w
    by_cases ha : (p.grow w).alive = true
    · rw [if_pos ha]
      intro hq
      rcases List.mem_append.mp hq with h | h
      · exact ⟨(p.grow w).plant, (p.grow w).world, k,
          (grow_alive_iff p w).mp ha, h, hW, hH, hT⟩
      · obtain ⟨par, w', k', h1, h2, h3, h4, h5⟩ :=
          plantsStep_offspring_mem r rest (p.grow w).world _ q h
        exact ⟨par, w', k', h1, h2, h3.trans hW, h4.trans hH,
          fun y x => (h5 y x).trans (hT y x)⟩
    · rw [if_neg ha]
      intro hq
      obtain ⟨par, w', k', h1, h2, h3, h4, h5⟩ :=
        plantsStep_offspring_mem r rest (p.grow w).world _ q hq
      exact ⟨par, w', k', h1, h2, h3.trans hW, h4.trans hH,
        fun y x => (h5 y x).trans (hT y x)⟩

/-- The world the plant loop returns keeps the input world's dimensions and
every cell's type, light and resources. -/
theorem plantsStep_world_frame (r : ℕ → ℚ) :
    ∀ (l : List Plant) (w : World) (k : ℕ),
      (plantsStep r l w k).world.width = w.width ∧
      (plantsStep r l w k).world.height = w.height ∧
      (∀ y x, (((plantsStep r l w k).world.grid y x)).ctype = (w.grid y x).ctype) ∧
      (∀ y x, (((plantsStep r l w k).world.grid y x)).light = (w.grid y x).light) ∧
      (∀ y x, (((plantsStep r l w k).world.grid y x)).resources = (w.grid y x).resources)
  | [], w, k => ⟨rfl, rfl, fun _ _ => rfl, fun _ _ => rfl, fun _ _ => rfl⟩
  | p :: rest, w, k => by
    simp only [plantsStep]
    obtain ⟨hW, hH, hT, hL, hR⟩ := grow_world_frame p w
    by_cases ha : (p.grow w).alive = true
    · rw [if_pos ha]
      obtain ⟨iW, iH, iT, iL, iR⟩ := plantsStep_world_frame r rest (p.grow w).world
        ((p.grow w).plant.reproduce (p.grow w).world r k).2
      exact ⟨iW.trans hW, iH.trans hH,
        fun y x => (iT y x).trans (hT y x),
        fun y x => (iL y x).trans (hL y x),
        fun y x => (iR y x).trans (hR y x)⟩
    · rw [if_neg ha]
      obtain ⟨iW, iH, iT, iL, iR⟩ := plantsStep_world_frame r rest (p.grow w).world k
      exact ⟨iW.trans hW, iH.trans hH,
        fun y x => (iT y x).trans (hT y x),
        fun y x => (iL y x).trans (hL y x),
        fun y x => (iR y x).trans (hR y x)⟩

/-! Projections of Simulation.update. -/

/-- The co2 level one update leaves behind. -/
theorem update_co2_eq (lightOf r : ℕ → ℚ) (s : Simulation) :
    (s.update lightOf r).co2
      = max 50 (s.co2
          - ((s.survivorsOf lightOf r ++ s.offspringOf lightOf r).map Plant.co2_absorbed).sum
          + 1/10) := rfl

/-- The o2 level one update leaves behind. -/
theorem update_o2_eq (lightOf r : ℕ → ℚ) (s : Simulation) :
    (s.update lightOf r).o2
      = max 50 (s.o2
          + ((s.survivorsOf lightOf r ++ s.offspringOf lightOf r).map Plant.o2_produced).sum
          - 1/10) := rfl

/-- The live list one update leaves behind: survivors then offspring, gas
counters reset. -/
theorem update_plants_eq (lightOf r : ℕ → ℚ) (s : Simulation) :
    (s.update lightOf r).plants
      = (s.survivorsOf lightOf r ++ s.offspringOf lightOf r).map
          (fun p => { p with co2_absorbed := 0, o2_produced := 0 }) := rfl

/-- The world one update leaves behind: the plant loop's world with the dead
plants' resources deposited. -/
theorem update_world_eq (lightOf r : ℕ → ℚ) (s : Simulation) :
    (s.update lightOf r).world
      = depositResources (s.removedOf lightOf r) (s.passOut lightOf r).world := rfl

/-- C5: the co2 and o2 levels start at 100 and stay at or above the floor of
50 after any number of updates, whatever the plant population did. -/
theorem atmosphere_floor (width height : ℕ) (coords : ℕ → ℤ × ℤ)
    (lightOf : ℕ → ℚ) (rs : ℕ → ℕ → ℚ) (n : ℕ) :
    50 ≤ (Simulation.updateN lightOf rs n (Simulation.init width height coords)).co2 ∧
    50 ≤ (Simulation.updateN lightOf rs n (Simulation.init width height coords)).o2 := by
  cases n with
  | zero =>
    constructor <;> norm_num [Simulation.updateN, Simulation.init]
  | succ m =>
    constructor
    · rw [show Simulation.updateN lightOf rs (m + 1) (Simulation.init width height coords)
            = (Simulation.updateN lightOf rs m (Simulation.init width height coords)).update
                lightOf (rs m) from rfl,
          update_co2_eq]
      exact le_max_left _ _
    · rw [show Simulation.updateN lightOf rs (m + 1) (Simulation.init width height coords)
            = (Simulation.updateN lightOf rs m (Simulation.init width height coords)).update
                lightOf (rs m) from rfl,
          update_o2_eq]
      exact le_max_left _ _

/-- C10: the atmosphere pass sums the gas counters only over the plants
still live after the removal and addition passes (survivors and offspring);
a plant removed this tick is in neither list, so its gas exchange is
discarded. -/
theorem atmosphere_sums_post_removal (lightOf r : ℕ → ℚ) (s : Simulation) (p : Plant)
    (hp : p ∈ s.removedOf lightOf r) :
    (s.update lightOf r).co2
      = max 50 (s.co2
          - ((s.survivorsOf lightOf r ++ s.offspringOf lightOf r).map Plant.co2_absorbed).sum
          + 1/10) ∧
    (s.update lightOf r).o2
      = max 50 (s.o2
          + ((s.survivorsOf lightOf r ++ s.offspringOf lightOf r).map Plant.o2_produced).sum
          - 1/10) ∧
    p ∉ s.survivorsOf lightOf r ++ s.offspringOf lightOf r := by
  refine ⟨update_co2_eq lightOf r s, update_o2_eq lightOf r s, ?_⟩
  have hdead : p.health ≤ 0 := plantsStep_removed_dead r s.plants _ _ p hp
  intro hmem
  rcases List.mem_append.mp hmem with h | h
  · exact absurd (plantsStep_survivors_alive r s.plants _ _ p h) (not_lt.mpr hdead)
  · obtain ⟨par, w', k', -, hrep, -⟩ := plantsStep_offspring_mem r s.plants _ _ p h
    obtain ⟨hcreate, -⟩ := reproduce_offspring par w' r k' p hrep
    have : p.health = 100 := by rw [hcreate]; rfl
    rw [this] at hdead
    norm_num at hdead

/-- A one-cell simulation holding a single plant of health 0, with the world
clock at hour 11 so the next update happens at noon (where the source's
light curve is exactly 0). -/
def simDyingOne : Simulation :=
  ⟨{ World.init 1 1 with hour := 11, time := 11 },
   [⟨(0, 0), 0, 0, 1/10, 0, 0⟩], 100, 100, 0⟩

/-- Witness for atmosphere_sums_post_removal: in simDyingOne the plant grows
to health -2 and is removed, and the update's gas levels follow the
survivors-plus-offspring sums. -/
theorem atmosphere_sums_post_removal_witness :
    (⟨(0, 0), 0, -2, 1/10, 0, 0⟩ : Plant) ∈
      Simulation.removedOf (fun _ => 0) (fun _ => 1) simDyingOne ∧
    (Simulation.update (fun _ => 0) (fun _ => 1) simDyingOne).co2
      = max 50 (simDyingOne.co2
          - ((Simulation.survivorsOf (fun _ => 0) (fun _ => 1) simDyingOne
              ++ Simulation.offspringOf (fun _ => 0) (fun _ => 1) simDyingOne).map
              Plant.co2_absorbed).sum
          + 1/10) ∧
    (Simulation.update (fun _ => 0) (fun _ => 1) simDyingOne).o2
      = max 50 (simDyingOne.o2
          + ((Simulation.survivorsOf (fun _ => 0) (fun _ => 1) simDyingOne
              ++ Simulation.offspringOf (fun _ => 0) (fun _ => 1) simDyingOne).map
              Plant.o2_produced).sum
          - 1/10) ∧
    (⟨(0, 0), 0, -2, 1/10, 0, 0⟩ : Plant) ∉
      Simulation.survivorsOf (fun _ => 0) (fun _ => 1) simDyingOne
        ++ Simulation.offspringOf (fun _ => 0) (fun _ => 1) simDyingOne := by
  have hp : (⟨(0, 0), 0, -2, 1/10, 0, 0⟩ : Plant) ∈
      Simulation.removedOf (fun _ => 0) (fun _ => 1) simDyingOne := by
    norm_num [simDyingOne, Simulation.removedOf, Simulation.passOut, Simulation.growPhase,
      plantsStep, Plant.grow, Plant.reproduce, World.advance_time, World.update_lighting,
      waterCycleCells, waterCellUpdate, soilEvaporation, soilRain, cellIndices, setGrid,
      World.get_cell, World.init, initCell, List.range_succ,
      Int.toNat_ofNat, water_eq_soil_iff, soil_eq_water_iff]
  exact ⟨hp,
    (atmosphere_sums_post_removal (fun _ => 0) (fun _ => 1) simDyingOne _ hp).1,
    (atmosphere_sums_post_removal (fun _ => 0) (fun _ => 1) simDyingOne _ hp).2.1,
    (atmosphere_sums_post_removal (fun _ => 0) (fun _ => 1) simDyingOne _ hp).2.2⟩

/-! The [0,1] bounds invariant on light and water (claim C3). -/

/-- The bounds the spec claims for a cell: light in [0,1] and water in
[0,1]. -/
def cellBounds (c : Cell) : Prop :=
  0 ≤ c.light ∧ c.light ≤ 1 ∧ 0 ≤ c.water ∧ c.water ≤ 1

/-- The invariant carried across updates: a nonnegative atmospheric pool and
bounded cells everywhere. -/
def Simulation.stateBounds (s : Simulation) : Prop :=
  0 ≤ s.atmosphere_water ∧ ∀ y x, cellBounds (s.world.grid y x)

/-- The freshly constructed grid is bounded: soil cells have light 0 and
water 0.7, lake cells light 0 and water 1. -/
theorem init_cellBounds (width height : ℕ) :
    ∀ y x, cellBounds ((World.init width height).grid y x) := by
  intro y x
  unfold World.init cellBounds initCell
  dsimp only
  split <;> norm_num

/-- advance_time keeps cells bounded when the light curve stays in [0,1]. -/
theorem advance_time_cellBounds (w : World) (lightOf : ℕ → ℚ)
    (hl : ∀ h, 0 ≤ lightOf h ∧ lightOf h ≤ 1)
    (hg : ∀ y x, cellBounds (w.grid y x)) :
    ∀ y x, cellBounds ((w.advance_time lightOf).grid y x) := by
  intro y x
  unfold World.advance_time World.update_lighting
  dsimp only
  split
  · obtain ⟨h1, h2⟩ := hl ((w.hour + 1) % 24)
    obtain ⟨-, -, h3, h4⟩ := hg y x
    exact ⟨h1, h2, h3, h4⟩
  · exact hg y x

/-- advance_time changes no cell's type, water or resources. -/
theorem advance_time_frame (w : World) (lightOf : ℕ → ℚ) :
    (w.advance_time lightOf).width = w.width ∧
    (w.advance_time lightOf).height = w.height ∧
    (∀ y x, ((w.advance_time lightOf).grid y x).ctype = (w.grid y x).ctype) ∧
    (∀ y x, ((w.advance_time lightOf).grid y x).water = (w.grid y x).water) ∧
    (∀ y x, ((w.advance_time lightOf).grid y x).resources = (w.grid y x).resources) := by
  refine ⟨rfl, rfl, ?_, ?_, ?_⟩ <;>
    intro y x <;>
    unfold World.advance_time World.update_lighting <;>
    dsimp only <;>
    split <;> rfl

/-- Evaporation keeps the pool nonnegative and the cells bounded, and
touches neither light, type nor resources. -/
theorem soilEvaporation_inv (hour : ℕ) (y x : ℕ) (st : WaterState)
    (ha : 0 ≤ st.atmosphere_water) (hg : ∀ y' x', cellBounds (st.grid y' x')) :
    0 ≤ (soilEvaporation hour y x st).atmosphere_water ∧
    (∀ y' x', cellBounds ((soilEvaporation hour y x st).grid y' x')) ∧
    (∀ y' x', ((soilEvaporation hour y x st).grid y' x').light = (st.grid y' x').light) ∧
    (∀ y' x', ((soilEvaporation hour y x st).grid y' x').ctype = (st.grid y' x').ctype) ∧
    (∀ y' x', ((soilEvaporation hour y x st).grid y' x').resources = (st.grid y' x').resources) := by
  unfold soilEvaporation
  dsimp only
  split
  · obtain ⟨-, -, hw0, hw1⟩ := hg y x
    have hev0 : 0 ≤ min (1/100 : ℚ) ((st.grid y x).water * (5/100)) :=
      le_min (by norm_num) (by nlinarith)
    have hev1 : min (1/100 : ℚ) ((st.grid y x).water * (5/100))
        ≤ (st.grid y x).water * (5/100) := min_le_right _ _
    refine ⟨by linarith, ?_, ?_, ?_, ?_⟩ <;>
      intro y' x' <;>
      unfold setGrid <;>
      dsimp only <;>
      split
    · rcases hg y x with ⟨hl0, hl1, -, -⟩
      exact ⟨hl0, hl1, by nlinarith, by linarith⟩
    · exact hg y' x'
    · rename_i h; rw [h.1, h.2]
    · rfl
    · rename_i h; rw [h.1, h.2]
    · rfl
    · rename_i h; rw [h.1, h.2]
    · rfl
  · exact ⟨ha, hg, fun _ _ => rfl, fun _ _ => rfl, fun _ _ => rfl⟩

/-- Rain keeps the pool nonnegative and the cells bounded, and touches
neither light, type nor resources. -/
theorem soilRain_inv (hour : ℕ) (r : ℕ → ℚ) (y x : ℕ) (st : WaterState)
    (ha : 0 ≤ st.atmosphere_water) (hg : ∀ y' x', cellBounds (st.grid y' x')) :
    0 ≤ (soilRain hour r y x st).atmosphere_water ∧
    (∀ y' x', cellBounds ((soilRain hour r y x st).grid y' x')) ∧
    (∀ y' x', ((soilRain hour r y x st).grid y' x').light = (st.grid y' x').light) ∧
    (∀ y' x', ((soilRain hour r y x st).grid y' x').ctype = (st.grid y' x').ctype) ∧
    (∀ y' x', ((soilRain hour r y x st).grid y' x').resources = (st.grid y' x').resources) := by
  unfold soilRain
  dsimp only
  split
  · split
    · have hra0 : 0 ≤ min (2/10 : ℚ) (st.atmosphere_water * (1/2)) :=
        le_min (by norm_num) (by linarith)
      refine ⟨le_max_left _ _, ?_, ?_, ?_, ?_⟩ <;>
        intro y' x' <;>
        unfold setGrid <;>
        dsimp only <;>
        split
      · rcases hg y x with ⟨hl0, hl1, hw0, hw1⟩
        exact ⟨hl0, hl1, le_min (by norm_num) (by linarith), min_le_left _ _⟩
      · exact hg y' x'
      · rename_i h; rw [h.1, h.2]
      · rfl
      · rename_i h; rw [h.1, h.2]
      · rfl
      · rename_i h; rw [h.1, h.2]
      · rfl
    · exact ⟨ha, hg, fun _ _ => rfl, fun _ _ => rfl, fun _ _ => rfl⟩
  · exact ⟨ha, hg, fun _ _ => rfl, fun _ _ => rfl, fun _ _ => rfl⟩

/-- One water-cycle cell step keeps the pool nonnegative and the cells
bounded, and touches neither light, type nor resources. -/
theorem waterCellUpdate_inv (hour : ℕ) (r : ℕ → ℚ) (y x : ℕ) (st : WaterState)
    (ha : 0 ≤ st.atmosphere_water) (hg : ∀ y' x', cellBounds (st.grid y' x')) :
    0 ≤ (waterCellUpdate hour r y x st).atmosphere_water ∧
    (∀ y' x', cellBounds ((waterCellUpdate hour r y x st).grid y' x')) ∧
    (∀ y' x', ((waterCellUpdate hour r y x st).grid y' x').light = (st.grid y' x').light) ∧
    (∀ y' x', ((waterCellUpdate hour r y x st).grid y' x').ctype = (st.grid y' x').ctype) ∧
    (∀ y' x', ((waterCellUpdate hour r y x st).grid y' x').resources = (st.grid y' x').resources) := by
  unfold waterCellUpdate
  dsimp only
  split
  · split
    · exact ⟨by linarith, hg, fun _ _ => rfl, fun _ _ => rfl, fun _ _ => rfl⟩
    · exact ⟨ha, hg, fun _ _ => rfl, fun _ _ => rfl, fun _ _ => rfl⟩
  · obtain ⟨ea, eg, el, et, er⟩ := soilEvaporation_inv hour y x st ha hg
    obtain ⟨ra, rg, rl, rt, rr⟩ := soilRain_inv hour r y x _ ea eg
    exact ⟨ra, rg,
      fun y' x' => (rl y' x').trans (el y' x'),
      fun y' x' => (rt y' x').trans (et y' x'),
      fun y' x' => (rr y' x').trans (er y' x')⟩

/-- The whole water-cycle pass keeps the pool nonnegative and the cells
bounded, and touches neither light, type nor resources. -/
theorem waterCycleCells_inv (hour : ℕ) (r : ℕ → ℚ) :
    ∀ (l : List (ℕ × ℕ)) (st : WaterState),
      0 ≤ st.atmosphere_water → (∀ y x, cellBounds (st.grid y x)) →
      0 ≤ (waterCycleCells hour r l st).atmosphere_water ∧
      (∀ y x, cellBounds ((waterCycleCells hour r l st).grid y x)) ∧
      (∀ y x, ((waterCycleCells hour r l st).grid y x).light = (st.grid y x).light) ∧
      (∀ y x, ((waterCycleCells hour r l st).grid y x).ctype = (st.grid y x).ctype) ∧
      (∀ y x, ((waterCycleCells hour r l st).grid y x).resources = (st.grid y x).resources)
  | [], st => fun ha hg => ⟨ha, hg, fun _ _ => rfl, fun _ _ => rfl, fun _ _ => rfl⟩
  | yx :: rest, st => by
    intro ha hg
    simp only [waterCycleCells]
    obtain ⟨ca, cg, cl, ct, cr⟩ := waterCellUpdate_inv hour r yx.1 yx.2 st ha hg
    obtain ⟨ia, ig, il, it, ir⟩ := waterCycleCells_inv hour r rest _ ca cg
    exact ⟨ia, ig,
      fun y x => (il y x).trans (cl y x),
      fun y x => (it y x).trans (ct y x),
      fun y x => (ir y x).trans (cr y x)⟩

/-- grow keeps every cell bounded: the only write floors the new water at 0
and subtracts a positive quantity, so it stays at or below the old value. -/
theorem grow_cellBounds (p : Plant) (w : World)
    (hg : ∀ y x, cellBounds (w.grid y x)) :
    ∀ y x, cellBounds (((p.grow w).world).grid y x) := by
  unfold Plant.grow
  cases hc : w.get_cell p.position.1 p.position.2 with
  | none => exact hg
  | some cell =>
    obtain ⟨hcell, -⟩ := get_cell_eq_grid w _ _ cell hc
    dsimp only
    split
    · split
      · rename_i hgf
        intro y x
        rw [setCellAt_grid]
        split
        · rename_i h
          obtain ⟨hl0, hl1, hw0, hw1⟩ := hg p.position.2.toNat p.position.1.toNat
          rw [← hcell] at hl0 hl1 hw0 hw1
          refine ⟨hl0, hl1, le_max_left _ _, max_le (by norm_num) (by linarith)⟩
        · exact hg y x
      · exact hg
    · exact hg

/-- The plant loop keeps every cell bounded. -/
theorem plantsStep_cellBounds (r : ℕ → ℚ) :
    ∀ (l : List Plant) (w : World) (k : ℕ),
      (∀ y x, cellBounds (w.grid y x)) →
      ∀ y x, cellBounds ((plantsStep r l w k).world.grid y x)
  | [], w, k => fun hg => hg
  | p :: rest, w, k => by
    intro hg
    simp only [plantsStep]
    by_cases ha : (p.grow w).alive = true
    · rw [if_pos ha]
      exact plantsStep_cellBounds r rest _ _ (grow_cellBounds p w hg)
    · rw [if_neg ha]
      exact plantsStep_cellBounds r rest _ _ (grow_cellBounds p w hg)

/-- The removal pass only rewrites resources: type, light and water are
pointwise unchanged. -/
theorem depositResources_frame :
    ∀ (l : List Plant) (w : World),
      (depositResources l w).width = w.width ∧
      (depositResources l w).height = w.height ∧
      (∀ y x, ((depositResources l w).grid y x).ctype = (w.grid y x).ctype) ∧
      (∀ y x, ((depositResources l w).grid y x).light = (w.grid y x).light) ∧
      (∀ y x, ((depositResources l w).grid y x).water = (w.grid y x).water)
  | [], w => ⟨rfl, rfl, fun _ _ => rfl, fun _ _ => rfl, fun _ _ => rfl⟩
  | p :: rest, w => by
    simp only [depositResources]
    cases hc : w.get_cell p.position.1 p.position.2 with
    | none => exact depositResources_frame rest w
    | some cell =>
      obtain ⟨hcell, -⟩ := get_cell_eq_grid w _ _ cell hc
      dsimp only
      obtain ⟨iW, iH, iT, iL, iwa⟩ := depositResources_frame rest
        (w.setCellAt p.position.1 p.position.2
          { cell with resources := cell.resources + p.size * (1/2) })
      refine ⟨iW, iH, ?_, ?_, ?_⟩ <;>
        intro y x <;>
        rw [show (w.setCellAt p.position.1 p.position.2
              { cell with resources := cell.resources + p.size * (1/2)
                }).grid = fun y' x' =>
              if y' = p.position.2.toNat ∧ x' = p.position.1.toNat then
                { cell with resources := cell.resources + p.size * (1/2) }
              else w.grid y' x' from rfl] at *
      · refine (iT y x).trans ?_
        dsimp only
        split
        · rename_i h; rw [h.1, h.2, hcell]
        · rfl
      · refine (iL y x).trans ?_
        dsimp only
        split
        · rename_i h; rw [h.1, h.2, hcell]
        · rfl
      · refine (iwa y x).trans ?_
        dsimp only
        split
        · rename_i h; rw [h.1, h.2, hcell]
        · rfl

/-- One update preserves the bounds invariant, provided the light curve
stays in [0,1]. -/
theorem update_stateBounds (lightOf r : ℕ → ℚ) (s : Simulation)
    (hl : ∀ h, 0 ≤ lightOf h ∧ lightOf h ≤ 1)
    (hs : s.stateBounds) :
    (s.update lightOf r).stateBounds := by
  obtain ⟨ha, hg⟩ := hs
  have hadv := advance_time_cellBounds s.world lightOf hl hg
  obtain ⟨wa, wg, -, -, -⟩ :=
    waterCycleCells_inv (s.world.advance_time lightOf).hour r
      (cellIndices (s.world.advance_time lightOf).height (s.world.advance_time lightOf).width)
      ⟨(s.world.advance_time lightOf).grid, s.atmosphere_water, 0⟩ ha hadv
  have hpp := plantsStep_cellBounds r s.plants (s.growPhase lightOf r).1
    (s.growPhase lightOf r).2.2 wg
  obtain ⟨-, -, dT, dL, dW⟩ := depositResources_frame
    (s.removedOf lightOf r) ((s.passOut lightOf r).world)
  refine ⟨wa, ?_⟩
  intro y x
  have hb : cellBounds ((s.passOut lightOf r).world.grid y x) := hpp y x
  show cellBounds
    ((depositResources (s.removedOf lightOf r) ((s.passOut lightOf r).world)).grid y x)
  unfold cellBounds at hb ⊢
  rw [dL y x, dW y x]
  exact hb

/-- The freshly constructed simulation satisfies the bounds invariant. -/
theorem init_stateBounds (width height : ℕ) (coords : ℕ → ℤ × ℤ) :
    (Simulation.init width height coords).stateBounds :=
  ⟨le_refl 0, init_cellBounds width height⟩

/-- Any reachable simulation state satisfies the bounds invariant. -/
theorem updateN_stateBounds (width height : ℕ) (coords : ℕ → ℤ × ℤ)
    (lightOf : ℕ → ℚ) (rs : ℕ → ℕ → ℚ)
    (hl : ∀ h, 0 ≤ lightOf h ∧ lightOf h ≤ 1) :
    ∀ n, (Simulation.updateN lightOf rs n (Simulation.init width height coords)).stateBounds
  | 0 => init_stateBounds width height coords
  | n + 1 =>
    update_stateBounds lightOf (rs n) _ hl
      (updateN_stateBounds width height coords lightOf rs hl n)

/-- C3: after any update of a reachable simulation state, every cell's light
lies in [0,1] and every soil cell's water lies in [0,1] (the water bound in
fact holds for all cells), as long as the per-hour light value does, which
lightCurve_nonneg_le_one shows for the source's sine curve. -/
theorem update_light_water_bounds (width height : ℕ) (coords : ℕ → ℤ × ℤ)
    (lightOf : ℕ → ℚ) (rs : ℕ → ℕ → ℚ) (n : ℕ) (y x : ℕ)
    (hl : ∀ h, 0 ≤ lightOf h ∧ lightOf h ≤ 1) :
    (0 ≤ ((Simulation.updateN lightOf rs (n + 1)
        (Simulation.init width height coords)).world.grid y x).light ∧
      ((Simulation.updateN lightOf rs (n + 1)
        (Simulation.init width height coords)).world.grid y x).light ≤ 1) ∧
    (((Simulation.updateN lightOf rs (n + 1)
        (Simulation.init width height coords)).world.grid y x).ctype = CellType.soil →
      0 ≤ ((Simulation.updateN lightOf rs (n + 1)
        (Simulation.init width height coords)).world.grid y x).water ∧
      ((Simulation.updateN lightOf rs (n + 1)
        (Simulation.init width height coords)).world.grid y x).water ≤ 1) := by
  obtain ⟨-, hg⟩ := updateN_stateBounds width height coords lightOf rs hl (n + 1)
  obtain ⟨h1, h2, h3, h4⟩ := hg y x
  exact ⟨⟨h1, h2⟩, fun _ => ⟨h3, h4⟩⟩

/-- Witness for update_light_water_bounds: the one-cell simulation, an
all-zero light curve, draws all 1, one update, cell (0,0). -/
theorem update_light_water_bounds_witness :
    (0 ≤ ((Simulation.updateN (fun _ => 0) (fun _ _ => 1) (0 + 1)
        (Simulation.init 1 1 (fun _ => (0, 0)))).world.grid 0 0).light ∧
      ((Simulation.updateN (fun _ => 0) (fun _ _ => 1) (0 + 1)
        (Simulation.init 1 1 (fun _ => (0, 0)))).world.grid 0 0).light ≤ 1) ∧
    (((Simulation.updateN (fun _ => 0) (fun _ _ => 1) (0 + 1)
        (Simulation.init 1 1 (fun _ => (0, 0)))).world.grid 0 0).ctype = CellType.soil →
      0 ≤ ((Simulation.updateN (fun _ => 0) (fun _ _ => 1) (0 + 1)
        (Simulation.init 1 1 (fun _ => (0, 0)))).world.grid 0 0).water ∧
      ((Simulation.updateN (fun _ => 0) (fun _ _ => 1) (0 + 1)
        (Simulation.init 1 1 (fun _ => (0, 0)))).world.grid 0 0).water ≤ 1) :=
  update_light_water_bounds 1 1 (fun _ => (0, 0)) (fun _ => 0) (fun _ _ => 1) 0 0 0
    (fun _ => ⟨le_refl 0, by norm_num⟩)

/-! Plants sit on in-bounds soil cells, and cell types never change
(claim C9). -/

/-- The plant's own cell exists and is soil: exactly the negation of the
condition taking grow's 10-point terrain penalty branch. -/
def onSoil (w : World) (p : Plant) : Prop :=
  cellIsSoil (w.get_cell p.position.1 p.position.2) = true

/-- Every live plant sits on an in-bounds soil cell. -/
def Simulation.plantsOnSoil (s : Simulation) : Prop :=
  ∀ p ∈ s.plants, onSoil s.world p

/-- Step by step through the plant loop, every grow call finds its cell
present and of soil type: the loop never takes grow's terrain penalty
branch.  The world and draw index evolve here exactly as in plantsStep. -/
def growsOnSoil (r : ℕ → ℚ) : List Plant → World → ℕ → Prop
  | [], _, _ => True
  | p :: rest, w, k =>
    cellIsSoil (w.get_cell p.position.1 p.position.2) = true ∧
    (if (p.grow w).alive = true then
      growsOnSoil r rest (p.grow w).world ((p.grow w).plant.reproduce (p.grow w).world r k).2
     else growsOnSoil r rest (p.grow w).world k)

/-- onSoil transfers between worlds of equal dimensions and pointwise equal
cell types. -/
theorem onSoil_congr (w w' : World) (hW : w'.width = w.width) (hH : w'.height = w.height)
    (hT : ∀ y x, (w'.grid y x).ctype = (w.grid y x).ctype) (p : Plant)
    (h : onSoil w p) : onSoil w' p := by
  unfold onSoil World.get_cell at h ⊢
  rw [hW, hH]
  split
  · rename_i hin
    rw [if_pos hin] at h
    simpa [cellIsSoil, hT] using h
  · rename_i hout
    rw [if_neg hout] at h
    simp [cellIsSoil] at h

/-- onSoil only depends on the plant's position. -/
theorem onSoil_of_position_eq (w : World) (p q : Plant)
    (hpq : q.position = p.position) (h : onSoil w p) : onSoil w q := by
  unfold onSoil at h ⊢
  rw [hpq]
  exact h

/-- A plant the seeding retry loop places sits on an in-bounds soil cell. -/
theorem trySeedPlant_onSoil (w : World) (coords : ℕ → ℤ × ℤ) :
    ∀ (attempts k : ℕ) (p : Plant),
      (trySeedPlant w coords attempts k).1 = some p → onSoil w p
  | 0, k, p => by simp [trySeedPlant]
  | attempts + 1, k, p => by
    simp only [trySeedPlant]
    cases hc : w.get_cell (coords k).1 (coords k).2 with
    | none => exact fun h => trySeedPlant_onSoil w coords attempts (k + 1) p h
    | some cell =>
      dsimp only
      split
      · rename_i hsoil
        intro h
        rcases Option.some.injEq _ _ ▸ h with rfl
        unfold onSoil
        rw [show (Plant.create (coords k)).position = coords k from rfl, hc]
        simp [cellIsSoil, hsoil]
      · exact fun h => trySeedPlant_onSoil w coords attempts (k + 1) p h

/-- Every seeded plant sits on an in-bounds soil cell. -/
theorem seedPlants_onSoil (w : World) (coords : ℕ → ℤ × ℤ) :
    ∀ (n k : ℕ) (p : Plant), p ∈ seedPlants w coords n k → onSoil w p
  | 0, k, p => by simp [seedPlants]
  | n + 1, k, p => by
    simp only [seedPlants]
    cases ht : trySeedPlant w coords 10 k with
    | mk op k' =>
      cases op with
      | none => exact fun h => seedPlants_onSoil w coords n k' p h
      | some q =>
        intro h
        rcases List.mem_cons.mp h with rfl | h
        · exact trySeedPlant_onSoil w coords 10 k p (by rw [ht])
        · exact seedPlants_onSoil w coords n k' p h

/-- Every survivor of the plant loop has the position of some input
plant. -/
theorem plantsStep_survivors_position (r : ℕ → ℚ) :
    ∀ (l : List Plant) (w : World) (k : ℕ) (q : Plant),
      q ∈ (plantsStep r l w k).survivors →
      ∃ p ∈ l, q.position = p.position
  | [], w, k, q => by simp [plantsStep]
  | p :: rest, w, k, q => by
    simp only [plantsStep]
    by_cases ha : (p.grow w).alive = true
    · rw [if_pos ha]
      intro hq
      rcases List.mem_cons.mp hq with rfl | h
      · exact ⟨p, List.mem_cons_self p rest, grow_position p w⟩
      · obtain ⟨p', hp', he⟩ := plantsStep_survivors_position r rest _ _ q h
        exact ⟨p', List.mem_cons_of_mem p hp', he⟩
    · rw [if_neg ha]
      intro hq
      obtain ⟨p', hp', he⟩ := plantsStep_survivors_position r rest _ _ q hq
      exact ⟨p', List.mem_cons_of_mem p hp', he⟩

/-- Writing a cell whose type agrees with the slot's old type leaves every
slot's type unchanged. -/
theorem setGrid_ctype (g : ℕ → ℕ → Cell) (y x : ℕ) (c : Cell)
    (hc : c.ctype = (g y x).ctype) (y' x' : ℕ) :
    (setGrid g y x c y' x').ctype = (g y' x').ctype := by
  unfold setGrid
  split
  · rename_i h; rw [hc, h.1, h.2]
  · rfl

/-- Evaporation never changes a cell's type. -/
theorem soilEvaporation_ctype (hour : ℕ) (y x : ℕ) (st : WaterState) :
    ∀ y' x', ((soilEvaporation hour y x st).grid y' x').ctype = (st.grid y' x').ctype := by
  intro y' x'
  unfold soilEvaporation
  dsimp only
  split
  · dsimp only
    apply setGrid_ctype
    rfl
  · rfl

/-- Rain never changes a cell's type. -/
theorem soilRain_ctype (hour : ℕ) (r : ℕ → ℚ) (y x : ℕ) (st : WaterState) :
    ∀ y' x', ((soilRain hour r y x st).grid y' x').ctype = (st.grid y' x').ctype := by
  intro y' x'
  unfold soilRain
  dsimp only
  split
  · split
    · dsimp only
      apply setGrid_ctype
      rfl
    · rfl
  · rfl

/-- The water-cycle cell step never changes a cell's type (pure frame, no
hypotheses needed). -/
theorem waterCellUpdate_frame (hour : ℕ) (r : ℕ → ℚ) (y x : ℕ) (st : WaterState) :
    ∀ y' x', ((waterCellUpdate hour r y x st).grid y' x').ctype = (st.grid y' x').ctype := by
  intro y' x'
  unfold waterCellUpdate
  dsimp only
  split
  · split <;> rfl
  · exact (soilRain_ctype hour r y x _ y' x').trans (soilEvaporation_ctype hour y x st y' x')


/-- The whole water-cycle pass never changes a cell's type. -/
theorem waterCycleCells_ctype_frame (hour : ℕ) (r : ℕ → ℚ) :
    ∀ (l : List (ℕ × ℕ)) (st : WaterState) (y x : ℕ),
      ((waterCycleCells hour r l st).grid y x).ctype = (st.grid y x).ctype
  | [], st, y, x => rfl
  | yx :: rest, st, y, x => by
    simp only [waterCycleCells]
    exact (waterCycleCells_ctype_frame hour r rest _ y x).trans
      (waterCellUpdate_frame hour r yx.1 yx.2 st y x)

/-- One update never changes the world's dimensions or any cell's type. -/
theorem update_world_ctype_frame (lightOf r : ℕ → ℚ) (s : Simulation) :
    (s.update lightOf r).world.width = s.world.width ∧
    (s.update lightOf r).world.height = s.world.height ∧
    ∀ y x, ((s.update lightOf r).world.grid y x).ctype = (s.world.grid y x).ctype := by
  obtain ⟨aW, aH, aT, -, -⟩ := advance_time_frame s.world lightOf
  obtain ⟨pW, pH, pT, -, -⟩ := plantsStep_world_frame r s.plants
    (s.growPhase lightOf r).1 (s.growPhase lightOf r).2.2
  obtain ⟨dW, dH, dT, -, -⟩ := depositResources_frame
    (s.removedOf lightOf r) ((s.passOut lightOf r).world)
  refine ⟨dW.trans (pW.trans aW), dH.trans (pH.trans aH), fun y x => ?_⟩
  have hgp : ((s.growPhase lightOf r).1.grid y x).ctype
      = ((s.world.advance_time lightOf).grid y x).ctype :=
    waterCycleCells_ctype_frame (s.world.advance_time lightOf).hour r
      (cellIndices (s.world.advance_time lightOf).height (s.world.advance_time lightOf).width)
      ⟨(s.world.advance_time lightOf).grid, s.atmosphere_water, 0⟩ y x
  exact (dT y x).trans ((pT y x).trans (hgp.trans (aT y x)))

/-- The loop input world of the next update (after advance_time and the
water cycle) has the same dimensions and cell types as the current world. -/
theorem growPhase_ctype_frame (lightOf r : ℕ → ℚ) (s : Simulation) :
    (s.growPhase lightOf r).1.width = s.world.width ∧
    (s.growPhase lightOf r).1.height = s.world.height ∧
    ∀ y x, (((s.growPhase lightOf r).1.grid y x)).ctype = (s.world.grid y x).ctype := by
  obtain ⟨aW, aH, aT, -, -⟩ := advance_time_frame s.world lightOf
  refine ⟨aW, aH, fun y x => ?_⟩
  have hgp : ((s.growPhase lightOf r).1.grid y x).ctype
      = ((s.world.advance_time lightOf).grid y x).ctype :=
    waterCycleCells_ctype_frame (s.world.advance_time lightOf).hour r
      (cellIndices (s.world.advance_time lightOf).height (s.world.advance_time lightOf).width)
      ⟨(s.world.advance_time lightOf).grid, s.atmosphere_water, 0⟩ y x
  exact hgp.trans (aT y x)

/-- If every plant of the list sits on soil, every grow call of the loop
over that list finds a soil cell. -/
theorem plantsStep_growsOnSoil (r : ℕ → ℚ) :
    ∀ (l : List Plant) (w : World) (k : ℕ),
      (∀ p ∈ l, onSoil w p) → growsOnSoil r l w k
  | [], w, k => fun _ => trivial
  | p :: rest, w, k => by
    intro hl
    obtain ⟨gW, gH, gT, -, -⟩ := grow_world_frame p w
    have hrest : ∀ q ∈ rest, onSoil (p.grow w).world q := fun q hq =>
      onSoil_congr w (p.grow w).world gW gH gT q (hl q (List.mem_cons_of_mem p hq))
    refine ⟨hl p (List.mem_cons_self p rest), ?_⟩
    split
    · exact plantsStep_growsOnSoil r rest (p.grow w).world _ hrest
    · exact plantsStep_growsOnSoil r rest (p.grow w).world k hrest

/-- One update keeps every live plant on an in-bounds soil cell. -/
theorem update_plantsOnSoil (lightOf r : ℕ → ℚ) (s : Simulation)
    (hs : s.plantsOnSoil) : (s.update lightOf r).plantsOnSoil := by
  intro q hq
  rw [update_plants_eq] at hq
  obtain ⟨q0, hq0, rfl⟩ := List.mem_map.mp hq
  obtain ⟨uW, uH, uT⟩ := update_world_ctype_frame lightOf r s
  have honW : ∀ p, onSoil s.world p → onSoil (s.update lightOf r).world p := fun p =>
    onSoil_congr s.world (s.update lightOf r).world uW uH uT p
  have hq0pos : (⟨q0.position, q0.age, q0.health, q0.size, 0, 0⟩ : Plant).position
      = q0.position := rfl
  rcases List.mem_append.mp hq0 with h | h
  · obtain ⟨p0, hp0, hpos⟩ := plantsStep_survivors_position r s.plants _ _ q0 h
    exact onSoil_of_position_eq _ _ _ hq0pos
      (honW _ (onSoil_of_position_eq s.world p0 q0 hpos (hs p0 hp0)))
  · obtain ⟨par, w', k', -, hrep, hW', hH', hT'⟩ := plantsStep_offspring_mem r s.plants _ _ q0 h
    obtain ⟨-, hsoil⟩ := reproduce_offspring par w' r k' q0 hrep
    obtain ⟨gW, gH, gT⟩ := growPhase_ctype_frame lightOf r s
    have h1 : onSoil w' q0 := hsoil
    have h2 : onSoil s.world q0 :=
      onSoil_congr w' s.world (hW'.trans gW).symm (hH'.trans gH).symm
        (fun y x => ((hT' y x).trans (gT y x)).symm) q0 h1
    exact onSoil_of_position_eq _ _ _ hq0pos (honW _ h2)

/-- The freshly seeded simulation has every plant on soil. -/
theorem init_plantsOnSoil (width height : ℕ) (coords : ℕ → ℤ × ℤ) :
    (Simulation.init width height coords).plantsOnSoil := fun p hp =>
  seedPlants_onSoil (World.init width height) coords 20 0 p hp

/-- Every reachable state has every plant on soil. -/
theorem updateN_plantsOnSoil (width height : ℕ) (coords : ℕ → ℤ × ℤ)
    (lightOf : ℕ → ℚ) (rs : ℕ → ℕ → ℚ) :
    ∀ n, (Simulation.updateN lightOf rs n (Simulation.init width height coords)).plantsOnSoil
  | 0 => init_plantsOnSoil width height coords
  | n + 1 =>
    update_plantsOnSoil lightOf (rs n) _
      (updateN_plantsOnSoil width height coords lightOf rs n)

/-- Every reachable state keeps the constructed world's cell types. -/
theorem updateN_ctype_frame (width height : ℕ) (coords : ℕ → ℤ × ℤ)
    (lightOf : ℕ → ℚ) (rs : ℕ → ℕ → ℚ) :
    ∀ n y x,
      (((Simulation.updateN lightOf rs n (Simulation.init width height coords)).world.grid y x)).ctype
        = ((World.init width height).grid y x).ctype
  | 0, y, x => rfl
  | n + 1, y, x => by
    obtain ⟨-, -, uT⟩ := update_world_ctype_frame lightOf (rs n)
      (Simulation.updateN lightOf rs n (Simulation.init width height coords))
    exact (uT y x).trans (updateN_ctype_frame width height coords lightOf rs n y x)

/-- C9: in every reachable simulation state, every live plant (seeded or
offspring) sits on an in-bounds soil cell; cell types never change after
World construction; and consequently, for any light curve and draw stream,
the plant loop of the next update finds a present soil cell at every grow
call, so grow's missing-or-non-soil penalty branch is never taken during
update(). -/
theorem plants_always_on_soil (width height : ℕ) (coords : ℕ → ℤ × ℤ)
    (lightOf : ℕ → ℚ) (rs : ℕ → ℕ → ℚ) (n : ℕ) :
    (∀ p ∈ (Simulation.updateN lightOf rs n (Simulation.init width height coords)).plants,
      onSoil (Simulation.updateN lightOf rs n (Simulation.init width height coords)).world p) ∧
    (∀ y x,
      (((Simulation.updateN lightOf rs n (Simulation.init width height coords)).world.grid y x)).ctype
        = ((World.init width height).grid y x).ctype) ∧
    (∀ (lightOf2 r2 : ℕ → ℚ),
      growsOnSoil r2
        (Simulation.updateN lightOf rs n (Simulation.init width height coords)).plants
        ((Simulation.updateN lightOf rs n (Simulation.init width height coords)).growPhase
          lightOf2 r2).1
        ((Simulation.updateN lightOf rs n (Simulation.init width height coords)).growPhase
          lightOf2 r2).2.2) := by
  refine ⟨updateN_plantsOnSoil width height coords lightOf rs n,
    updateN_ctype_frame width height coords lightOf rs n, ?_⟩
  intro lightOf2 r2
  obtain ⟨gW, gH, gT⟩ := growPhase_ctype_frame lightOf2 r2
    (Simulation.updateN lightOf rs n (Simulation.init width height coords))
  exact plantsStep_growsOnSoil r2 _ _ _ fun p hp =>
    onSoil_congr _ _ gW gH gT p
      (updateN_plantsOnSoil width height coords lightOf rs n p hp)

/-! Removal of dead plants and the resources they deposit (claim C6). -/

/-- Writing a cell that agrees with the old slot under the projection f
leaves f unchanged at every slot. -/
theorem setGrid_field {α : Type} (f : Cell → α) (g : ℕ → ℕ → Cell) (y x : ℕ) (c : Cell)
    (hc : f c = f (g y x)) (y' x' : ℕ) :
    f (setGrid g y x c y' x') = f (g y' x') := by
  unfold setGrid
  split
  · rename_i h; rw [hc, h.1, h.2]
  · rfl

/-- Evaporation only rewrites water. -/
theorem soilEvaporation_field {α : Type} (f : Cell → α)
    (hf : ∀ (c : Cell) (v : ℚ), f { c with water := v } = f c)
    (hour : ℕ) (y x : ℕ) (st : WaterState) :
    ∀ y' x', f ((soilEvaporation hour y x st).grid y' x') = f (st.grid y' x') := by
  intro y' x'
  unfold soilEvaporation
  dsimp only
  split
  · dsimp only
    exact setGrid_field f st.grid y x _ (hf _ _) y' x'
  · rfl

/-- Rain only rewrites water. -/
theorem soilRain_field {α : Type} (f : Cell → α)
    (hf : ∀ (c : Cell) (v : ℚ), f { c with water := v } = f c)
    (hour : ℕ) (r : ℕ → ℚ) (y x : ℕ) (st : WaterState) :
    ∀ y' x', f ((soilRain hour r y x st).grid y' x') = f (st.grid y' x') := by
  intro y' x'
  unfold soilRain
  dsimp only
  split
  · split
    · dsimp only
      exact setGrid_field f st.grid y x _ (hf _ _) y' x'
    · rfl
  · rfl

/-- The water-cycle cell step only rewrites water. -/
theorem waterCellUpdate_field {α : Type} (f : Cell → α)
    (hf : ∀ (c : Cell) (v : ℚ), f { c with water := v } = f c)
    (hour : ℕ) (r : ℕ → ℚ) (y x : ℕ) (st : WaterState) :
    ∀ y' x', f ((waterCellUpdate hour r y x st).grid y' x') = f (st.grid y' x') := by
  intro y' x'
  unfold waterCellUpdate
  dsimp only
  split
  · split <;> rfl
  · exact (soilRain_field f hf hour r y x _ y' x').trans
      (soilEvaporation_field f hf hour y x st y' x')

/-- The whole water-cycle pass only rewrites water. -/
theorem waterCycleCells_field {α : Type} (f : Cell → α)
    (hf : ∀ (c : Cell) (v : ℚ), f { c with water := v } = f c)
    (hour : ℕ) (r : ℕ → ℚ) :
    ∀ (l : List (ℕ × ℕ)) (st : WaterState) (y x : ℕ),
      f ((waterCycleCells hour r l st).grid y x) = f (st.grid y x)
  | [], st, y, x => rfl
  | yx :: rest, st, y, x => by
    simp only [waterCycleCells]
    exact (waterCycleCells_field f hf hour r rest _ y x).trans
      (waterCellUpdate_field f hf hour r yx.1 yx.2 st y x)

/-- The world the plant loop starts from keeps the current world's
resources in every cell. -/
theorem passOut_resources (lightOf r : ℕ → ℚ) (s : Simulation) :
    ∀ y x, (((s.passOut lightOf r).world.grid y x)).resources
      = (s.world.grid y x).resources := by
  intro y x
  obtain ⟨-, -, -, -, pR⟩ := plantsStep_world_frame r s.plants
    (s.growPhase lightOf r).1 (s.growPhase lightOf r).2.2
  obtain ⟨-, -, -, -, aR⟩ := advance_time_frame s.world lightOf
  have wR : (((s.growPhase lightOf r).1.grid y x)).resources
      = ((s.world.advance_time lightOf).grid y x).resources :=
    waterCycleCells_field (fun c => c.resources) (fun _ _ => rfl)
      (s.world.advance_time lightOf).hour r
      (cellIndices (s.world.advance_time lightOf).height (s.world.advance_time lightOf).width)
      ⟨(s.world.advance_time lightOf).grid, s.atmosphere_water, 0⟩ y x
  exact (pR y x).trans (wR.trans (aR y x))

/-- The world the plant loop starts from, and leaves behind, keeps the
current world's dimensions. -/
theorem passOut_dims (lightOf r : ℕ → ℚ) (s : Simulation) :
    (s.passOut lightOf r).world.width = s.world.width ∧
    (s.passOut lightOf r).world.height = s.world.height := by
  obtain ⟨pW, pH, -, -, -⟩ := plantsStep_world_frame r s.plants
    (s.growPhase lightOf r).1 (s.growPhase lightOf r).2.2
  exact ⟨pW, pH⟩

/-- The removal pass adds size * 0.5 to the dead plant's cell, per dead
plant in list order: at any in-bounds cell, the resources grow by the sum of
size * 0.5 over the removed plants sitting at that exact position. -/
theorem depositResources_resources :
    ∀ (l : List Plant) (w : World) (x y : ℤ),
      0 ≤ x → x < (w.width : ℤ) → 0 ≤ y → y < (w.height : ℤ) →
      ((depositResources l w).grid y.toNat x.toNat).resources
        = (w.grid y.toNat x.toNat).resources
          + ((l.filter (fun q => q.position = (x, y))).map (fun q => q.size * (1/2))).sum
  | [], w, x, y => by
    intro hx0 hx1 hy0 hy1
    simp [depositResources]
  | p :: rest, w, x, y => by
    intro hx0 hx1 hy0 hy1
    simp only [depositResources]
    cases hc : w.get_cell p.position.1 p.position.2 with
    | none =>
      have hne : ¬ (p.position = (x, y)) := by
        intro he
        unfold World.get_cell at hc
        rw [he] at hc
        rw [if_pos ⟨hx0, hx1, hy0, hy1⟩] at hc
        exact Option.noConfusion hc
      rw [List.filter_cons, if_neg (fun hdec => hne (of_decide_eq_true hdec))]
      exact depositResources_resources rest w x y hx0 hx1 hy0 hy1
    | some cell =>
      obtain ⟨hcell, hpx0, hpx1, hpy0, hpy1⟩ := get_cell_eq_grid w _ _ cell hc
      dsimp only
      have ih := depositResources_resources rest
        (w.setCellAt p.position.1 p.position.2
          { cell with resources := cell.resources + p.size * (1/2) })
        x y hx0 hx1 hy0 hy1
      rw [ih, setCellAt_grid]
      by_cases hpq : p.position = (x, y)
      · have hpx : p.position.1 = x := by rw [hpq]
        have hpy : p.position.2 = y := by rw [hpq]
        have e1 : y.toNat = p.position.2.toNat := by rw [hpy]
        have e2 : x.toNat = p.position.1.toNat := by rw [hpx]
        rw [List.filter_cons, if_pos (decide_eq_true hpq)]
        rw [if_pos (And.intro e1 e2)]
        rw [hcell, hpx, hpy]
        simp only [List.map_cons, List.sum_cons]
        ring
      · have hcond : ¬ (y.toNat = p.position.2.toNat ∧ x.toNat = p.position.1.toNat) := by
          rintro ⟨h1, h2⟩
          apply hpq
          have e1 : p.position.1 = x := by omega
          have e2 : p.position.2 = y := by omega
          rw [Prod.ext_iff]
          exact ⟨e1, e2⟩
        rw [List.filter_cons, if_neg (fun hdec => hpq (of_decide_eq_true hdec))]
        rw [if_neg hcond]

/-- grow never makes the plant's size negative. -/
theorem grow_size_nonneg (p : Plant) (w : World) (h : 0 ≤ p.size) :
    0 ≤ (p.grow w).plant.size := by
  unfold Plant.grow
  cases hc : w.get_cell p.position.1 p.position.2 with
  | none => exact h
  | some cell =>
    dsimp only
    split
    · split
      · rename_i hgf
        have hmin : (0 : ℚ) ≤ min (p.size + min cell.light cell.water * (2/10) * (1/10)) 1 :=
          le_min (by nlinarith) (by norm_num)
        split
        · exact hmin
        · exact hmin
      · split
        · exact h
        · exact h
    · exact h

/-- Every removed plant keeps a nonnegative size when all loop inputs had
one. -/
theorem plantsStep_removed_size (r : ℕ → ℚ) :
    ∀ (l : List Plant) (w : World) (k : ℕ),
      (∀ p ∈ l, 0 ≤ p.size) →
      ∀ q ∈ (plantsStep r l w k).removed, 0 ≤ q.size
  | [], w, k => by simp [plantsStep]
  | p :: rest, w, k => by
    intro hl
    simp only [plantsStep]
    have hrest : ∀ p' ∈ rest, 0 ≤ p'.size :=
      fun p' hp' => hl p' (List.mem_cons_of_mem p hp')
    by_cases ha : (p.grow w).alive = true
    · rw [if_pos ha]
      exact fun q hq => plantsStep_removed_size r rest _ _ hrest q hq
    · rw [if_neg ha]
      intro q hq
      rcases List.mem_cons.mp hq with rfl | h
      · exact grow_size_nonneg p w (hl p (List.mem_cons_self p rest))
      · exact plantsStep_removed_size r rest _ _ hrest q h

/-- Every plant in the live list after one update has positive health:
survivors by the grow result, offspring because they are freshly created
with health 100. -/
theorem update_plants_health (lightOf r : ℕ → ℚ) (s : Simulation) :
    ∀ q ∈ (s.update lightOf r).plants, 0 < q.health := by
  intro q hq
  rw [update_plants_eq] at hq
  obtain ⟨q0, hq0, rfl⟩ := List.mem_map.mp hq
  show 0 < q0.health
  rcases List.mem_append.mp hq0 with h | h
  · exact plantsStep_survivors_alive r s.plants _ _ q0 h
  · obtain ⟨par, w', k', -, hrep, -⟩ := plantsStep_offspring_mem r s.plants _ _ q0 h
    obtain ⟨hcr, -⟩ := reproduce_offspring par w' r k' q0 hrep
    rw [hcr]
    norm_num [Plant.create]

/-- C6 amended: a plant whose grow returned false has nonpositive health and
is not in the live collection after the update; every offspring of the tick
was produced by a different, live plant; and the plant's cell gains the sum
of size * 0.5 over all plants removed at that position this tick, a strict
increase (exactly size * 0.5 when it is the only plant removed there). -/
theorem dead_plant_removed_and_deposits (lightOf r : ℕ → ℚ) (s : Simulation) (p : Plant)
    (hp : p ∈ s.removedOf lightOf r)
    (hsz : 0 < p.size)
    (hall : ∀ q ∈ s.plants, 0 ≤ q.size)
    (hx0 : 0 ≤ p.position.1) (hx1 : p.position.1 < (s.world.width : ℤ))
    (hy0 : 0 ≤ p.position.2) (hy1 : p.position.2 < (s.world.height : ℤ)) :
    p.health ≤ 0 ∧
    p ∉ (s.update lightOf r).plants ∧
    (∀ q ∈ s.offspringOf lightOf r, ∃ (par : Plant) (w' : World) (k' : ℕ),
      par ≠ p ∧ 0 < par.health ∧ q ∈ (par.reproduce w' r k').1) ∧
    ((s.update lightOf r).world.grid p.position.2.toNat p.position.1.toNat).resources
      = (s.world.grid p.position.2.toNat p.position.1.toNat).resources
        + (((s.removedOf lightOf r).filter
            (fun q => q.position = p.position)).map (fun q => q.size * (1/2))).sum ∧
    (s.world.grid p.position.2.toNat p.position.1.toNat).resources
      < ((s.update lightOf r).world.grid p.position.2.toNat p.position.1.toNat).resources := by
  have hdead : p.health ≤ 0 := plantsStep_removed_dead r s.plants _ _ p hp
  obtain ⟨dW, dH⟩ := passOut_dims lightOf r s
  have hx1' : p.position.1 < (((s.passOut lightOf r).world.width : ℕ) : ℤ) := by
    rw [dW]; exact hx1
  have hy1' : p.position.2 < (((s.passOut lightOf r).world.height : ℕ) : ℤ) := by
    rw [dH]; exact hy1
  have hres : ((s.update lightOf r).world.grid p.position.2.toNat p.position.1.toNat).resources
      = (s.world.grid p.position.2.toNat p.position.1.toNat).resources
        + (((s.removedOf lightOf r).filter
            (fun q => q.position = p.position)).map (fun q => q.size * (1/2))).sum := by
    rw [update_world_eq]
    have base := depositResources_resources (s.removedOf lightOf r)
      ((s.passOut lightOf r).world) p.position.1 p.position.2 hx0 hx1' hy0 hy1'
    rw [base, passOut_resources]
  refine ⟨hdead, ?_, ?_, hres, ?_⟩
  · intro hmem
    exact absurd (update_plants_health lightOf r s p hmem) (not_lt.mpr hdead)
  · intro q hqo
    obtain ⟨par, w', k', hh, hrep, -⟩ := plantsStep_offspring_mem r s.plants _ _ q hqo
    exact ⟨par, w', k',
      fun he => absurd (he ▸ hh) (not_lt.mpr hdead), hh, hrep⟩
  · rw [hres]
    have hmemf : p ∈ (s.removedOf lightOf r).filter (fun q => q.position = p.position) :=
      List.mem_filter.mpr ⟨hp, by simp⟩
    have hpos : ∀ v ∈ ((s.removedOf lightOf r).filter
        (fun q => q.position = p.position)).map (fun q => q.size * (1/2)), 0 ≤ v := by
      intro v hv
      obtain ⟨q, hq, rfl⟩ := List.mem_map.mp hv
      have := plantsStep_removed_size r s.plants _ _ hall q (List.mem_of_mem_filter hq)
      linarith
    have hmm : p.size * (1/2) ∈ ((s.removedOf lightOf r).filter
        (fun q => q.position = p.position)).map (fun q => q.size * (1/2)) :=
      List.mem_map_of_mem _ hmemf
    have hsum := List.single_le_sum hpos _ hmm
    linarith

/-- A one-cell simulation holding two identical plants of health 0 at the
same position, with the world clock at hour 11 (the next update happens at
noon, where the source's light curve is exactly 0). -/
def simDyingTwo : Simulation :=
  ⟨{ World.init 1 1 with hour := 11, time := 11 },
   [⟨(0, 0), 0, 0, 1/10, 0, 0⟩, ⟨(0, 0), 0, 0, 1/10, 0, 0⟩], 100, 100, 0⟩

/-- C6 counterexample: when two cohabiting plants die in the same tick, the
cell's resources rise by the sum of both deposits (0.1: from 1 to 1.1), not
by the single dead plant's size * 0.5 = 0.05, so the claim's 'strictly
increase by exactly size*0.5' fails for each of them. -/
theorem dead_plants_shared_cell_counterexample :
    (⟨(0, 0), 0, -2, 1/10, 0, 0⟩ : Plant) ∈
      Simulation.removedOf (fun _ => 0) (fun _ => 1) simDyingTwo ∧
    ((Simulation.update (fun _ => 0) (fun _ => 1) simDyingTwo).world.grid 0 0).resources
      = 11/10 ∧
    (simDyingTwo.world.grid 0 0).resources = 1 ∧
    ¬ ((11/10 : ℚ) = 1 + (1/10) * (1/2)) := by
  refine ⟨?_, ?_, ?_, by norm_num⟩ <;>
    norm_num [simDyingTwo, Simulation.update, Simulation.update_atmosphere,
      Simulation.removedOf, Simulation.passOut, Simulation.growPhase, plantsStep,
      depositResources, World.setCellAt,
      Plant.grow, Plant.reproduce, World.advance_time, World.update_lighting,
      waterCycleCells, waterCellUpdate, soilEvaporation, soilRain, cellIndices, setGrid,
      World.get_cell, World.init, initCell, List.range_succ,
      Int.toNat_ofNat, water_eq_soil_iff, soil_eq_water_iff]

/-- Witness for dead_plant_removed_and_deposits: the lone health-0 plant of
simDyingOne dies at noon; its cell's resources go from 1 to 1.05. -/
theorem dead_plant_removed_and_deposits_witness :
    (⟨(0, 0), 0, -2, 1/10, 0, 0⟩ : Plant) ∈
      Simulation.removedOf (fun _ => 0) (fun _ => 1) simDyingOne ∧
    (0 : ℚ) < (⟨(0, 0), 0, -2, 1/10, 0, 0⟩ : Plant).size ∧
    (⟨(0, 0), 0, -2, 1/10, 0, 0⟩ : Plant).health ≤ 0 ∧
    (⟨(0, 0), 0, -2, 1/10, 0, 0⟩ : Plant) ∉
      (Simulation.update (fun _ => 0) (fun _ => 1) simDyingOne).plants ∧
    (∀ q ∈ Simulation.offspringOf (fun _ => 0) (fun _ => 1) simDyingOne,
      ∃ (par : Plant) (w' : World) (k' : ℕ),
        par ≠ (⟨(0, 0), 0, -2, 1/10, 0, 0⟩ : Plant) ∧ 0 < par.health ∧
        q ∈ (par.reproduce w' (fun _ => 1) k').1) ∧
    ((Simulation.update (fun _ => 0) (fun _ => 1) simDyingOne).world.grid
        (⟨(0, 0), 0, -2, 1/10, 0, 0⟩ : Plant).position.2.toNat
        (⟨(0, 0), 0, -2, 1/10, 0, 0⟩ : Plant).position.1.toNat).resources
      = (simDyingOne.world.grid
          (⟨(0, 0), 0, -2, 1/10, 0, 0⟩ : Plant).position.2.toNat
          (⟨(0, 0), 0, -2, 1/10, 0, 0⟩ : Plant).position.1.toNat).resources
        + (((Simulation.removedOf (fun _ => 0) (fun _ => 1) simDyingOne).filter
            (fun q => q.position = (⟨(0, 0), 0, -2, 1/10, 0, 0⟩ : Plant).position)).map
            (fun q => q.size * (1/2))).sum ∧
    (simDyingOne.world.grid
        (⟨(0, 0), 0, -2, 1/10, 0, 0⟩ : Plant).position.2.toNat
        (⟨(0, 0), 0, -2, 1/10, 0, 0⟩ : Plant).position.1.toNat).resources
      < ((Simulation.update (fun _ => 0) (fun _ => 1) simDyingOne).world.grid
          (⟨(0, 0), 0, -2, 1/10, 0, 0⟩ : Plant).position.2.toNat
          (⟨(0, 0), 0, -2, 1/10, 0, 0⟩ : Plant).position.1.toNat).resources := by
  have hp : (⟨(0, 0), 0, -2, 1/10, 0, 0⟩ : Plant) ∈
      Simulation.removedOf (fun _ => 0) (fun _ => 1) simDyingOne := by
    norm_num [simDyingOne, Simulation.removedOf, Simulation.passOut, Simulation.growPhase,
      plantsStep, Plant.grow, Plant.reproduce, World.advance_time, World.update_lighting,
      waterCycleCells, waterCellUpdate, soilEvaporation, soilRain, cellIndices, setGrid,
      World.get_cell, World.init, initCell, List.range_succ,
      Int.toNat_ofNat, water_eq_soil_iff, soil_eq_water_iff]
  have hall : ∀ q ∈ simDyingOne.plants, (0 : ℚ) ≤ q.size := by
    intro q hq
    rw [show simDyingOne.plants = [⟨(0, 0), 0, 0, 1/10, 0, 0⟩] from rfl] at hq
    rcases List.mem_singleton.mp hq with rfl
    norm_num
  have thm := dead_plant_removed_and_deposits (fun _ => 0) (fun _ => 1) simDyingOne
    ⟨(0, 0), 0, -2, 1/10, 0, 0⟩ hp (by norm_num) hall
    (by norm_num) (by norm_num [simDyingOne, World.init])
    (by norm_num) (by norm_num [simDyingOne, World.init])
  exact ⟨hp, by norm_num, thm.1, thm.2.1, thm.2.2.1, thm.2.2.2.1, thm.2.2.2.2⟩

end Ecosim
